import Mathlib

/-!
Verification of the outbound-collections orchestration core.

This file gives a shallow embedding, in Lean 4, of the pure decision logic of
the repository:

* `src/api/outbound_orchestration.py` — job state machine, retry math,
  idempotency-key derivation, job construction;
* `src/api/job_store.py` — idempotent enqueue over a persisted job collection;
* `src/api/compliance.py` and `src/api/contact_attempt_store.py` — the
  pre-dial compliance gate and the attempt ledger queries it uses;
* `src/outbound_voice_agent/agent.py` and `state.py` — the per-call dialog
  engine (`start_call` / `handle_turn`) and the voice-first output filter.

Modelling conventions, used throughout:

* UTC timestamps are modelled as integer seconds.  The Python code stores
  ISO-8601 UTC strings and converts with `to_iso_utc` / `parse_iso_utc`,
  which are an order-isomorphic bijection between instants and the strings
  actually produced; arithmetic such as `now + timedelta(seconds=d)` becomes
  plain integer addition.  Where a timestamp is embedded into a string (the
  idempotency fingerprint), `toString` of the integer stands for the ISO
  rendering (any injective rendering plays the same role).
* `hashlib.sha256(...).hexdigest()` is modelled as an uninterpreted function
  `digest : String → String` passed as a parameter; no theorem below depends
  on any property of the digest.
* Python exceptions (`raise ValueError`) are modelled with `Option`/`Except`:
  `none` / `.error` is the hard-error outcome.
* Timezone localization (`zoneinfo.ZoneInfo`) is modelled as an abstract
  `TzModel` giving the local minute-of-day, the local calendar day, and the
  next local midnight of a UTC instant.  The gate's decision logic, which is
  what the claims are about, is embedded faithfully on top of it.
* Python `float` arithmetic in the gate (`elapsed_minutes`) is modelled
  exactly over `ℚ`; Python's `round` (banker's rounding) is embedded as
  `round_half_even`.
-/

namespace Collections

/-! ## Job orchestration (`src/api/outbound_orchestration.py`) -/

/-- `class JobState(str, Enum)` — the worker job states. -/
inductive JobState where
  | queued
  | leased
  | running
  | waiting_retry
  | succeeded
  | failed
  | dead_letter
  | canceled
deriving DecidableEq, Repr, Fintype

/-- `class JobEvent(str, Enum)` — the worker job events. -/
inductive JobEvent where
  | lease
  | start
  | call_succeeded
  | call_failed
  | schedule_retry
  | retry_ready
  | exhaust_retries
  | cancel
deriving DecidableEq, Repr, Fintype

/-- `STATE_TRANSITIONS` / `transition_state`: the transition dictionary of
`outbound_orchestration.py`; `none` models the `raise ValueError` branch for a
pair absent from the dictionary. -/
def transition_state : JobState → JobEvent → Option JobState
  | .queued, .lease => some .leased
  | .leased, .start => some .running
  | .running, .call_succeeded => some .succeeded
  | .running, .call_failed => some .failed
  | .leased, .schedule_retry => some .waiting_retry
  | .failed, .schedule_retry => some .waiting_retry
  | .waiting_retry, .retry_ready => some .queued
  | .failed, .exhaust_retries => some .dead_letter
  | .queued, .cancel => some .canceled
  | .leased, .cancel => some .canceled
  | .running, .cancel => some .canceled
  | .waiting_retry, .cancel => some .canceled
  | _, _ => none

/-- `is_terminal_state` from `outbound_orchestration.py`. -/
def is_terminal_state (s : JobState) : Bool :=
  s = .succeeded ∨ s = .dead_letter ∨ s = .canceled

/-- `class TriggerSource(str, Enum)`. -/
inductive TriggerSource where
  | cron
  | webhook
  | manual
deriving DecidableEq, Repr

/-- `@dataclass(frozen=True) class RetryPolicy`. -/
structure RetryPolicy where
  max_attempts : Int := 3
  base_delay_seconds : Int := 120
  max_delay_seconds : Int := 3600
deriving DecidableEq, Repr

/-- `@dataclass(frozen=True) class CallPolicySnapshot`. -/
structure CallPolicySnapshot where
  timezone : String
  allowed_local_time_ranges : List String
  daily_attempt_cap : Int := 2
  min_gap_minutes : Int := 60
deriving DecidableEq, Repr

/-- `@dataclass(frozen=True) class OutboundCallPayload`.  `party_profile` is a
string-to-string dict in the source; it is carried opaquely as an association
list.  `suppression_flags` keeps the three keys the gate reads. -/
structure SuppressionFlags where
  dnc : Bool := false
  cease_contact : Bool := false
  legal_hold : Bool := false
deriving DecidableEq, Repr

structure OutboundCallPayload where
  account_ref : String
  party_profile : List (String × String) := []
  account_context_ref : String := ""
  language : String := "en-US"
  suppression_flags : SuppressionFlags := {}
deriving DecidableEq, Repr

/-- `@dataclass class JobAttempt`. -/
structure JobAttempt where
  attempt_number : Int
  started_at_utc : Int
  ended_at_utc : Option Int := none
  outcome_code : Option String := none
  error_code : Option String := none
  call_id : Option String := none
deriving DecidableEq, Repr

/-- `@dataclass class OutboundCallJob`. -/
structure OutboundCallJob where
  job_id : String
  idempotency_key : String
  trigger_source : TriggerSource
  campaign_id : String
  priority : Int
  created_at_utc : Int
  scheduled_for_utc : Int
  state : JobState
  payload : OutboundCallPayload
  policy : CallPolicySnapshot
  retry_policy : RetryPolicy := {}
  lease_owner : Option String := none
  lease_expires_at_utc : Option Int := none
  next_attempt_at_utc : Option Int := none
  attempts : List JobAttempt := []
  failure_reason : Option String := none
deriving DecidableEq, Repr

/-- `OutboundCallJob.can_attempt_again`. -/
def OutboundCallJob.can_attempt_again (j : OutboundCallJob) : Bool :=
  (j.attempts.length : Int) < j.retry_policy.max_attempts

/-- `compute_retry_delay_seconds`: exponential backoff
`min(base * 2 ** max(0, attempt_number - 1), max_delay)`. -/
def compute_retry_delay_seconds (attempt_number base_delay_seconds max_delay_seconds : Int) : Int :=
  min (base_delay_seconds * 2 ^ (max 0 (attempt_number - 1)).toNat) max_delay_seconds

/-- `OutboundCallJob.mark_failed_and_schedule_retry`.  Closes the last attempt
with `error_code`, fires CALL_FAILED, then either EXHAUST_RETRIES (no budget)
or SCHEDULE_RETRY with the backoff delay; `.error` models `raise`. -/
def OutboundCallJob.mark_failed_and_schedule_retry (j : OutboundCallJob)
    (error_code : String) (now_utc : Int) : Except String OutboundCallJob :=
  match j.attempts.getLast? with
  | none => .error "Cannot schedule retry without an attempt record."
  | some last =>
    let closed := { last with ended_at_utc := some now_utc, error_code := some error_code }
    let j1 := { j with attempts := j.attempts.dropLast ++ [closed] }
    match transition_state j1.state .call_failed with
    | none => .error "Invalid transition"
    | some s1 =>
      let j2 := { j1 with state := s1 }
      if ¬ j2.can_attempt_again then
        match transition_state j2.state .exhaust_retries with
        | none => .error "Invalid transition"
        | some s2 => .ok { j2 with state := s2, failure_reason := some error_code }
      else
        match transition_state j2.state .schedule_retry with
        | none => .error "Invalid transition"
        | some s2 =>
          let delay := compute_retry_delay_seconds (j2.attempts.length : Int)
            j2.retry_policy.base_delay_seconds j2.retry_policy.max_delay_seconds
          .ok { j2 with state := s2,
                        next_attempt_at_utc := some (now_utc + delay),
                        lease_owner := none,
                        lease_expires_at_utc := none }

/-- `build_idempotency_key`: `"job_" + sha256(campaign|account|scheduled)[:24]`.
`digest` is the uninterpreted stand-in for the sha256 hexdigest. -/
def build_idempotency_key (digest : String → String)
    (campaign_id account_ref scheduled_for_utc : String) : String :=
  "job_" ++ (digest (campaign_id ++ "|" ++ account_ref ++ "|" ++ scheduled_for_utc)).take 24

/-- `create_job` from `outbound_orchestration.py`.  `now` replaces the
`utc_now()` call; `scheduled = scheduled_for_utc or to_iso_utc(now)`. -/
def create_job (digest : String → String) (job_id : String)
    (trigger_source : TriggerSource) (campaign_id : String)
    (payload : OutboundCallPayload) (policy : CallPolicySnapshot)
    (scheduled_for_utc : Option Int) (priority : Int)
    (retry_policy : Option RetryPolicy) (now : Int) : OutboundCallJob :=
  let scheduled := scheduled_for_utc.getD now
  { job_id := job_id
    idempotency_key :=
      build_idempotency_key digest campaign_id payload.account_ref (toString scheduled)
    trigger_source := trigger_source
    campaign_id := campaign_id
    priority := priority
    created_at_utc := now
    scheduled_for_utc := scheduled
    state := .queued
    payload := payload
    policy := policy
    retry_policy := retry_policy.getD {}
    next_attempt_at_utc := some scheduled }

/-! ## Job store (`src/api/job_store.py`)

`JsonJobStore` keeps one JSON file per job under a directory; `_load_all_locked`
reads them all.  The persisted collection is modelled as a `List OutboundCallJob`
and `_find_by_idempotency_locked` as a first-match scan. -/

/-- `JsonJobStore._find_by_idempotency_locked`. -/
def find_by_idempotency (jobs : List OutboundCallJob) (key : String) :
    Option OutboundCallJob :=
  jobs.find? (fun j => j.idempotency_key == key)

/-- `JsonJobStore.enqueue_job`: build a candidate job, return the existing job
with `created = false` if one already has the derived idempotency key,
otherwise persist the new job and return it with `created = true`.
Result: `((job, created), new collection)`. -/
def enqueue_job (digest : String → String) (jobs : List OutboundCallJob)
    (new_job_id : String) (now : Int)
    (trigger_source : TriggerSource) (campaign_id : String)
    (payload : OutboundCallPayload) (policy : CallPolicySnapshot)
    (scheduled_for_utc : Option Int) (priority : Int)
    (retry_policy : Option RetryPolicy) :
    (OutboundCallJob × Bool) × List OutboundCallJob :=
  let new_job := create_job digest new_job_id trigger_source campaign_id payload policy
    scheduled_for_utc priority retry_policy now
  match find_by_idempotency jobs new_job.idempotency_key with
  | some existing => ((existing, false), jobs)
  | none => ((new_job, true), jobs ++ [new_job])

/-! ## Attempt ledger (`src/api/contact_attempt_store.py`) -/

/-- One ledger event of `JsonContactAttemptStore` (the fields the gate reads). -/
structure LedgerEvent where
  recorded_at_utc : Int
  job_id : Option String := none
  call_id : Option String := none
  decision_code : String := ""
  counts_toward_attempt : Bool
deriving DecidableEq, Repr

/-- Timezone localization (`zoneinfo.ZoneInfo`), abstracted: the local
minute-of-day and local calendar day of a UTC instant, and the UTC instant of
the next local midnight.  `local_minute_of_day` is bounded by construction in
the source (`hour * 60 + minute < 1440`); no theorem below needs the bound. -/
structure TzModel where
  local_minute_of_day : Int → Nat
  local_day : Int → Int
  next_local_midnight : Int → Int

/-- `JsonContactAttemptStore.count_attempts_for_local_day`: counted events whose
recorded instant falls on the given local calendar day. -/
def count_attempts_for_local_day (tz : TzModel) (events : List LedgerEvent)
    (local_day : Int) : Nat :=
  (events.filter (fun e =>
    e.counts_toward_attempt && tz.local_day e.recorded_at_utc == local_day)).length

/-- `JsonContactAttemptStore.get_last_counted_attempt_at_utc`: the maximum
recorded instant over counted events (`none` if there are none). -/
def get_last_counted_attempt_at_utc (events : List LedgerEvent) : Option Int :=
  ((events.filter (fun e => e.counts_toward_attempt)).map
    (fun e => e.recorded_at_utc)).max?

/-! ## Python string primitives

The Lean core `String` functions (`trim`, `splitOn`, `toLower`, ...) are
implemented over byte positions and do not reduce inside the kernel, so the
Python string operations the source uses are re-implemented here over
`List Char`.  `py_is_space` is the ASCII whitespace class of Python
`str.split` / `str.strip` / `\s` (the inputs of this program are ASCII). -/

def py_is_space (c : Char) : Bool :=
  c = ' ' ∨ c = '\t' ∨ c = '\n' ∨ c = '\r' ∨ c = '\x0b' ∨ c = '\x0c'

/-- Python `str.strip()` on a character list. -/
def strip_chars (l : List Char) : List Char :=
  ((l.dropWhile py_is_space).reverse.dropWhile py_is_space).reverse

/-- Python `str.strip()`. -/
def py_strip (s : String) : String :=
  ⟨strip_chars s.data⟩

/-- Python `s.split(sep)` for a single-character separator: split at every
occurrence, keeping empty pieces. -/
def split_on_char (sep : Char) : List Char → List (List Char)
  | [] => [[]]
  | c :: rest =>
    if c = sep then [] :: split_on_char sep rest
    else
      match split_on_char sep rest with
      | [] => [[c]]
      | h :: t => (c :: h) :: t

/-- `s.split()`-style splitting on a character class: split at every
character satisfying `p`, keeping empty pieces (callers drop them). -/
def split_on_pred (p : Char → Bool) : List Char → List (List Char)
  | [] => [[]]
  | c :: rest =>
    if p c then [] :: split_on_pred p rest
    else
      match split_on_pred p rest with
      | [] => [[c]]
      | h :: t => (c :: h) :: t

/-- ASCII lower-casing of one character (Python `str.lower` on ASCII). -/
def lower_char (c : Char) : Char :=
  if 'A' ≤ c ∧ c ≤ 'Z' then Char.ofNat (c.toNat + 32) else c

/-- Python `str.lower()`. -/
def str_lower (s : String) : String :=
  ⟨s.data.map lower_char⟩

/-- Python `pat in s` (substring containment). -/
def str_contains (s pat : String) : Bool :=
  s.data.tails.any (fun t => pat.data.isPrefixOf t)

/-! ## Pre-dial compliance gate (`src/api/compliance.py`) -/

/-- Python `int(...)` as used by `_parse_window` on `"HH:MM"` pieces: optional
surrounding whitespace, optional sign, then ASCII digits. -/
def py_int (l : List Char) : Option Int :=
  let t := strip_chars l
  let core :=
    match t with
    | '-' :: rest => rest
    | '+' :: rest => rest
    | other => other
  let neg : Bool := match t with | '-' :: _ => true | _ => false
  if core ≠ [] ∧ core.all Char.isDigit then
    let n : Nat := core.foldl (fun acc c => acc * 10 + (c.toNat - 48)) 0
    some (if neg then -(n : Int) else (n : Int))
  else none

/-- `_parse_window`: `"HH:MM-HH:MM"` to minutes-of-day `(start, end)`;
`none` models the exception path (skipped window).  `window.split("-", 1)`
splits at the first `-` only. -/
def parse_window (window : String) : Option (Int × Int) :=
  match split_on_char '-' window.data with
  | [] => none
  | [_] => none
  | start_str :: rest =>
    let end_str := List.intercalate ['-'] rest
    match (split_on_char ':' (strip_chars start_str)).map py_int,
          (split_on_char ':' (strip_chars end_str)).map py_int with
    | [some sh, some sm], [some eh, some em] => some (sh * 60 + sm, eh * 60 + em)
    | _, _ => none

/-- One iteration of the window loop of `_is_local_time_allowed`: `false`
covers both "window does not match" and "window fails to parse". -/
def window_allows (current_minutes : Int) (window : String) : Bool :=
  match parse_window window with
  | none => false
  | some (s, e) =>
    if s ≤ e then s ≤ current_minutes ∧ current_minutes ≤ e
    else current_minutes ≥ s ∨ current_minutes ≤ e

/-- `_is_local_time_allowed`: empty range list allows everything; otherwise
some window must allow the current local minute. -/
def is_local_time_allowed (policy : CallPolicySnapshot) (current_minutes : Int) : Bool :=
  if policy.allowed_local_time_ranges = [] then true
  else policy.allowed_local_time_ranges.any (window_allows current_minutes)

/-- `@dataclass(frozen=True) class PreDialDecision`. -/
structure PreDialDecision where
  allowed : Bool
  reason_code : String
  retryable : Bool
  attempts_today : Nat
  retry_after_seconds : Option Int := none
  min_gap_blocked_minutes_remaining : Option Int := none
deriving DecidableEq, Repr

/-- Python's `round` on the exact rational value: round half to even. -/
def round_half_even (q : ℚ) : Int :=
  let f := ⌊q⌋
  let r := q - f
  if r < 1/2 then f
  else if 1/2 < r then f + 1
  else if Even f then f else f + 1

/-- `evaluate_pre_dial_gate`: suppression flags, then call window, then daily
cap, then minimum gap.  `events` is the account's ledger snapshot; `now` the
evaluation instant in UTC seconds. -/
def evaluate_pre_dial_gate (tz : TzModel) (policy : CallPolicySnapshot)
    (suppression_flags : SuppressionFlags) (events : List LedgerEvent)
    (now : Int) : PreDialDecision :=
  if suppression_flags.dnc then
    { allowed := false, reason_code := "blocked_suppression_dnc",
      retryable := false, attempts_today := 0 }
  else if suppression_flags.cease_contact then
    { allowed := false, reason_code := "blocked_suppression_cease_contact",
      retryable := false, attempts_today := 0 }
  else if suppression_flags.legal_hold then
    { allowed := false, reason_code := "blocked_suppression_legal_hold",
      retryable := false, attempts_today := 0 }
  else if ¬ is_local_time_allowed policy (tz.local_minute_of_day now) then
    { allowed := false, reason_code := "blocked_policy_outside_call_window",
      retryable := true, attempts_today := 0, retry_after_seconds := some 900 }
  else
    let attempts_today := count_attempts_for_local_day tz events (tz.local_day now)
    if (attempts_today : Int) ≥ policy.daily_attempt_cap then
      { allowed := false, reason_code := "blocked_policy_daily_attempt_cap",
        retryable := true, attempts_today := attempts_today,
        retry_after_seconds := some (max 60 (tz.next_local_midnight now - now)) }
    else
      match get_last_counted_attempt_at_utc events with
      | some last_dt =>
        let elapsed_minutes : ℚ := ((now - last_dt : Int) : ℚ) / 60
        if elapsed_minutes < (policy.min_gap_minutes : ℚ) then
          let remaining : Int :=
            max 1 (round_half_even ((policy.min_gap_minutes : ℚ) - elapsed_minutes))
          { allowed := false, reason_code := "blocked_policy_min_gap",
            retryable := true, attempts_today := attempts_today,
            retry_after_seconds := some (remaining * 60),
            min_gap_blocked_minutes_remaining := some remaining }
        else
          { allowed := true, reason_code := "allowed", retryable := true,
            attempts_today := attempts_today }
      | none =>
        { allowed := true, reason_code := "allowed", retryable := true,
          attempts_today := attempts_today }

/-! ## Voice-first output filter (`agent.py`, `_enforce_voice_first`)

The filter is embedded at the `List Char` level. -/

/-- The sentence-terminator class `[.!?]`. -/
def is_sentence_term (c : Char) : Bool :=
  c = '.' ∨ c = '!' ∨ c = '?'

/-- Python `text.split()`: split on whitespace runs, dropping empty pieces. -/
def words_of (l : List Char) : List (List Char) :=
  (split_on_pred py_is_space l).filter (fun w => w ≠ [])

/-- `" ".join(text.split())` — the `cleaned` string of `_enforce_voice_first`. -/
def cleaned_of (l : List Char) : List Char :=
  List.intercalate [' '] (words_of l)

/-- Character scan implementing `re.split(r"(?<=[.!?])\s+", text)`: a cut
happens after a sentence terminator that is immediately followed by
whitespace, and the whole whitespace run is consumed.  The flag records
whether the scan is currently inside such a separator run (i.e. a cut has
just happened and leading whitespace still belongs to the separator). -/
def sent_split_aux (skipping : Bool) : List Char → List (List Char)
  | [] => [[]]
  | c :: rest =>
    if skipping && py_is_space c then
      sent_split_aux true rest
    else
      if is_sentence_term c &&
          (match rest with
           | [] => false
           | d :: _ => py_is_space d) then
        [c] :: sent_split_aux true rest
      else
        match sent_split_aux false rest with
        | [] => [[c]]
        | h :: t => (c :: h) :: t

/-- `re.split(r"(?<=[.!?])\s+", cleaned)`. -/
def sent_split (l : List Char) : List (List Char) :=
  sent_split_aux false l

/-- `[s.strip() for s in re.split(...) if s.strip()]`, with the
`if not sentences: sentences = [cleaned]` fallback. -/
def sentences_of (cleaned : List Char) : List (List Char) :=
  let raw := ((sent_split cleaned).map strip_chars).filter (fun s => s ≠ [])
  if raw = [] then [cleaned] else raw

/-- `sentence.replace(a, b)` for single characters. -/
def replace_char (a b : Char) (l : List Char) : List Char :=
  l.map (fun c => if c = a then b else c)

/-- The per-sentence question normalization of `_enforce_voice_first`: in the
first sentence containing `?` keep the first `?` and delete the rest; in any
later sentence turn every `?` into `.`.  Returns the rewritten sentence and
the updated `question_seen` flag. -/
def fix_question_sentence (question_seen : Bool) (sent : List Char) :
    List Char × Bool :=
  if '?' ∈ sent then
    if question_seen then (replace_char '?' '.' sent, true)
    else
      let pre := sent.takeWhile (fun c => c ≠ '?')
      let post := (sent.dropWhile (fun c => c ≠ '?')).drop 1
      (pre ++ '?' :: post.filter (fun c => c ≠ '?'), true)
  else (sent, question_seen)

/-- The question-normalization loop (`for sentence in limited: ...`), with the
trailing `sentence.strip()` of each appended sentence. -/
def fix_questions (question_seen : Bool) : List (List Char) → List (List Char)
  | [] => []
  | s :: rest =>
    let p := fix_question_sentence question_seen s
    strip_chars p.1 :: fix_questions p.2 rest

/-- `if constrained and constrained[-1] not in ".!?": constrained += "."`. -/
def ensure_terminal (l : List Char) : List Char :=
  match l.getLast? with
  | none => l
  | some c => if is_sentence_term c then l else l ++ ['.']

/-- `_enforce_voice_first` on a character list. -/
def enforce_voice_first_core (text : List Char) : List Char :=
  let cleaned := cleaned_of text
  if cleaned = [] then []
  else
    let limited := (sentences_of cleaned).take 2
    let normalized := fix_questions false limited
    ensure_terminal (strip_chars (List.intercalate [' '] normalized))

/-- `_enforce_voice_first` (`agent.py` lines 704-732). -/
def enforce_voice_first (s : String) : String :=
  ⟨enforce_voice_first_core s.data⟩

/-- Modelled from the spec: the same filter with the question rule read as
"allow at most one `?` (remaining `?` become `.`)" — every `?` after the first
is replaced by `.`, including those in the same sentence as the first.  Used
only to exhibit where the implementation deviates from this reading. -/
def fix_question_sentence_spec (question_seen : Bool) (sent : List Char) :
    List Char × Bool :=
  if '?' ∈ sent then
    if question_seen then (replace_char '?' '.' sent, true)
    else
      let pre := sent.takeWhile (fun c => c ≠ '?')
      let post := (sent.dropWhile (fun c => c ≠ '?')).drop 1
      (pre ++ '?' :: replace_char '?' '.' post, true)
  else (sent, question_seen)

def fix_questions_spec (question_seen : Bool) : List (List Char) → List (List Char)
  | [] => []
  | s :: rest =>
    let p := fix_question_sentence_spec question_seen s
    strip_chars p.1 :: fix_questions_spec p.2 rest

def enforce_voice_first_spec (s : String) : String :=
  let cleaned := cleaned_of s.data
  if cleaned = [] then ⟨[]⟩
  else
    let limited := (sentences_of cleaned).take 2
    let normalized := fix_questions_spec false limited
    ⟨ensure_terminal (strip_chars (List.intercalate [' '] normalized))⟩

/-! ## Call state (`src/outbound_voice_agent/state.py`) -/

/-- The `Phase` literal type. -/
inductive Phase where
  | pre_verification
  | verification
  | post_verification
  | closing
  | escalation
  | ended
deriving DecidableEq, Repr

/-- `class PromiseToPay(BaseModel)`. -/
structure PromiseToPay where
  date : Option String := none
  amount : Option String := none
  confirmed : Bool := false
deriving DecidableEq, Repr

/-- `class Callback(BaseModel)`. -/
structure CallbackState where
  requested : Bool := false
  datetime_local : Option String := none
deriving DecidableEq, Repr

/-- `class CallState(BaseModel)` with the pydantic defaults.  The
`YesNoUnknown` and `UserSentiment` literal fields are carried as strings;
`right_party_confidence` is a Python float, modelled as `ℚ` (the dialog
engine never writes it). -/
structure CallState where
  phase : Phase := .pre_verification
  turn_count : Nat := 0
  right_party_verified : Bool := false
  right_party_confidence : ℚ := 0
  verification_attempts : Nat := 0
  silence_count : Nat := 0
  last_proposed_payment_date : Option String := none
  escalation_flag : Bool := false
  target_reached : String := "unknown"
  consent_to_continue : String := "unknown"
  disclosure_delivered : Bool := false
  mini_miranda_acknowledged : Bool := false
  negotiation_proposals_count : Nat := 0
  reconduction_attempts : Nat := 0
  clarification_attempts : Nat := 0
  last_user_utterance : String := ""
  last_assistant_question : String := ""
  last_assistant_intent : String := ""
  user_sentiment : String := "neutral"
  wrong_party_indicated : Bool := false
  voicemail_detected : Bool := false
  dispute_flag : Bool := false
  hardship_flag : Bool := false
  cease_contact_requested : Bool := false
  promise_to_pay : PromiseToPay := {}
  callback : CallbackState := {}
  escalation_reason : Option String := none
  end_reason : Option String := none
deriving DecidableEq, Repr

/-! ## Dialog engine (`src/outbound_voice_agent/agent.py`) -/

/-- `TurnEventType = Literal["user_utterance", "silence", "system_event"]`. -/
inductive TurnEventType where
  | user_utterance
  | silence
  | system_event
deriving DecidableEq, Repr

/-- `@dataclass(frozen=True) class TurnEvent`. -/
structure TurnEvent where
  event_type : TurnEventType
  transcript : Option String := none
  timestamp_utc : String := ""
  current_local_date : String := ""
  current_local_time : String := ""
  timezone : String := ""
  language : String := "en-US"
deriving DecidableEq, Repr

/-- The intent labels of `intent_classifier.py`. -/
inductive IntentLabel where
  | stop_request
  | goodbye
  | human_handoff
  | wrong_party
  | dispute
  | busy
  | uncomfortable
  | refusal
  | uncertain
  | identity_question
  | affirmation
  | negation
  | unknown
deriving DecidableEq, Repr

/-- The view of an `IntentClassification` that `handle_turn` consumes:
`nlu.matched(intent)` (score at least `0.5`) per label, and
`is_low_confidence_unknown(nlu)`. -/
structure NluResult where
  matched : IntentLabel → Bool
  low_confidence_unknown : Bool

/-- The dict returned by `normalize_datetime_local` (the keys `handle_turn`
reads). -/
structure NormalizeResult where
  ok : Bool := false
  date : Option String := none
  needs_confirmation : Bool := false
deriving DecidableEq, Repr

/-- The pure helper functions the dialog engine calls on the transcript and
on dates.  They are deterministic functions of their string arguments in the
source (`classify_utterance`, `normalize_datetime_local`, `_extract_zip`,
`_get_last_day_of_month_str`, `_format_iso_date_for_voice`); the engine
theorems below hold for every such function, so they are abstracted as
parameters of the step. -/
structure DialogEnv where
  classify : String → NluResult
  normalize : String → String → String → String → NormalizeResult
  extract_zip : String → Option String
  last_day_of_month_str : String → String
  format_date_for_voice : String → String

/-- `party_profile.get("target_name", "the account holder")`, resolved. -/
structure PartyProfile where
  target_name : String := "the account holder"
deriving DecidableEq, Repr

/-- The two values the engine reads from `account_context`:
`str(account_context.get("expected_zip", "")).strip()` and the
`_get_amount_due` rendering `f"{float(amount_due):.2f}"` (the float
formatting itself is outside the engine; the engine only embeds the
resulting string). -/
structure AccountContext where
  expected_zip : String := ""
  amount_due : String := "0.00"
deriving DecidableEq, Repr

/-- `_get_amount_due`. -/
def get_amount_due (ctx : AccountContext) : String :=
  ctx.amount_due

/-- The two values the engine reads from `policy_config`:
`_get(policy_config, ("limits", "max_total_turns"), 25)` and
`_get(policy_config, ("disclosures", "post_verification_disclosure_text"), "")`. -/
structure PolicyConfig where
  max_total_turns : Int := 25
  post_verification_disclosure_text : String := ""
deriving DecidableEq, Repr

/-- The sum type of emitted side-effect actions. -/
inductive AgentAction where
  | set_outcome (outcome_code : String)
  | create_promise_to_pay (date : String) (amount : String)
  | escalate_to_human (reason : Option String)
  | end_call (reason : String)
deriving DecidableEq, Repr

/-- The response dict of `start_call` / `handle_turn` (the diagnostic `nlu`
echo entry is derived data and is not modelled). -/
structure AgentResponse where
  assistant_text : String
  assistant_intent : String
  actions : List AgentAction
  call_state : CallState
deriving DecidableEq, Repr

/-- Truthiness of an optional string (`None` and `""` are falsy). -/
def opt_truthy (o : Option String) : Bool :=
  match o with
  | none => false
  | some s => s ≠ ""

/-- `_wrap_response`: run the voice-first filter, remember the constrained
question when it contains `?`, and record the assistant intent. -/
def wrap_response (text intent : String) (actions : List AgentAction)
    (state : CallState) : AgentResponse :=
  let constrained := enforce_voice_first text
  let state1 :=
    if str_contains constrained "?" then
      { state with last_assistant_question := constrained }
    else state
  let state2 := { state1 with last_assistant_intent := intent }
  { assistant_text := constrained, assistant_intent := intent,
    actions := actions, call_state := state2 }

/-- `_close_call`. -/
def close_call (state : CallState) (text outcome : String) : AgentResponse :=
  wrap_response text "close"
    [.set_outcome outcome, .end_call outcome]
    { state with phase := .ended, end_reason := some outcome }

/-- `_escalate_and_end` (its `config`/`profile`/`context` arguments are
unused in the source).  `f"escalated_{state.escalation_reason or 'unknown'}"`:
`or` replaces both `None` and the empty string. -/
def escalate_and_end (state : CallState) : AgentResponse :=
  let outcome := "escalated_" ++
    (match state.escalation_reason with
     | none => "unknown"
     | some s => if s = "" then "unknown" else s)
  wrap_response "I\x27ll connect you with a specialist who can help further. Please hold."
    "escalate"
    [.set_outcome outcome, .escalate_to_human state.escalation_reason, .end_call outcome]
    { state with phase := .ended, end_reason := some outcome }

/-- `_confirm_ptp`. -/
def confirm_ptp (state : CallState) (date_str amount : String) : AgentResponse :=
  let text := "Perfect. I\x27ve noted your commitment for $" ++ amount ++ " on "
    ++ date_str ++ ". Thank you, and have a great day."
  wrap_response text "close"
    [.set_outcome "ptp_set", .create_promise_to_pay date_str amount, .end_call "ptp_set"]
    { state with
        promise_to_pay := { date := some date_str, amount := some amount, confirmed := true },
        last_proposed_payment_date := some date_str,
        phase := .ended,
        end_reason := some "ptp_set" }

/-- `_handle_silence`. -/
def handle_silence_turn (state : CallState) : AgentResponse :=
  let state1 := { state with silence_count := state.silence_count + 1 }
  if state1.silence_count ≥ 3 then
    close_call state1
      "Since I haven\x27t heard from you, I\x27ll end the call for now. Goodbye."
      "silence_timeout"
  else
    wrap_response "Are you still there? I didn\x27t catch that." "handle_silence" [] state1

/-- `_end_with_limit`. -/
def end_with_limit (state : CallState) : AgentResponse :=
  close_call state "Thank you for your time. Goodbye." "max_turns"

/-- `_ask_verification_question`. -/
def ask_verification_question (state : CallState) : AgentResponse :=
  let last := str_lower state.last_user_utterance
  let text :=
    if str_contains last "what" ∨ str_contains last "why" ∨ str_contains last "who" then
      "I can certainly explain that, but first, to protect your privacy, I need to verify I\x27m speaking with the right person. Could you please confirm your 5-digit ZIP code?"
    else
      "To protect your privacy, please confirm your 5-digit ZIP code."
  wrap_response text "verify_identity" [] { state with last_assistant_question := text }

/-- `_handle_low_confidence` (`phase` is the phase tag string). -/
def handle_low_confidence (state : CallState) (phase : String)
    (pp : PartyProfile) : AgentResponse :=
  let state1 := { state with clarification_attempts := state.clarification_attempts + 1 }
  if state1.clarification_attempts ≤ 1 then
    let text :=
      if phase = "pre_verification" then
        "Sorry, I didn\x27t catch that. Are you " ++ pp.target_name ++ "?"
      else if phase = "verification" then
        "Sorry, I didn\x27t catch that. Please confirm your 5-digit ZIP code."
      else
        "Sorry, I didn\x27t catch that. Could you repeat the payment date that works for you?"
    let intent :=
      if phase = "pre_verification" then "request_target"
      else if phase = "verification" then "verify_identity"
      else "negotiate"
    wrap_response text intent [] { state1 with last_assistant_question := text }
  else
    escalate_and_end
      { state1 with escalation_flag := true, escalation_reason := some "low_confidence" }

/-- `_deliver_disclosure_and_start_negotiation`. -/
def deliver_disclosure_and_start_negotiation (state : CallState)
    (pc : PolicyConfig) (ctx : AccountContext) : AgentResponse :=
  let amount := get_amount_due ctx
  let disclosure := py_strip pc.post_verification_disclosure_text
  let parts :=
    ((split_on_char '.' disclosure.data).map strip_chars).filter (fun p => p ≠ [])
  let single :=
    match parts with
    | p0 :: p1 :: _ => (⟨p0⟩ : String) ++ "; " ++ (⟨p1⟩ : String)
    | [p0] => (⟨p0⟩ : String)
    | [] => "This is Northstar Recovery; this is an attempt to collect a debt, and any information obtained will be used for that purpose"
  let text := single ++ ". Can you pay the $" ++ amount ++ " balance today?"
  wrap_response text "deliver_disclosure" []
    { state with disclosure_delivered := true, last_assistant_question := text }

/-- `_is_today_payment_prompt`. -/
def is_today_payment_prompt (last_question_text : String) : Bool :=
  let t := str_lower last_question_text
  str_contains t "today" ∧
    (str_contains t "take care" ∨ str_contains t "pay" ∨ str_contains t "balance")

/-- `_is_exact_date_request_prompt`. -/
def is_exact_date_request_prompt (last_question_text : String) : Bool :=
  let t := str_lower last_question_text
  str_contains t "find a day before the end of the month" ∨
    str_contains t "what date before the end of the month"

/-- `_looks_like_affirmative_today_response`. -/
def looks_like_affirmative_today_response (user_text : String) : Bool :=
  let t := str_lower user_text
  if t = "" then false
  else if str_contains t "no" ∨ str_contains t "not" ∨ str_contains t "can\x27t" ∨
      str_contains t "cannot" ∨ str_contains t "don\x27t" ∨ str_contains t "do not" ∨
      str_contains t "won\x27t" then false
  else
    str_contains t "yes" ∨ str_contains t "yeah" ∨ str_contains t "yep" ∨
    str_contains t "sure" ∨ str_contains t "i can" ∨ str_contains t "can do" ∨
    str_contains t "take care" ∨ str_contains t "pay today"

/-- Year and month of an ISO `YYYY-MM-DD` string, for `_is_current_month`. -/
def parse_iso_year_month (s : String) : Option (Int × Int) :=
  match split_on_char '-' s.data with
  | y :: m :: _ =>
    (match py_int y, py_int m with
     | some yy, some mm => some (yy, mm)
     | _, _ => none)
  | _ => none

/-- `_is_current_month` (`datetime.fromisoformat` failure, which raises in the
source, is modelled as `false`: in both cases no promise is confirmed). -/
def is_current_month (proposed_iso current_iso : String) : Bool :=
  match parse_iso_year_month proposed_iso, parse_iso_year_month current_iso with
  | some pa, some ca => pa = ca
  | _, _ => false

/-- `_handle_pre_verification`. -/
def handle_pre_verification (state : CallState) (pp : PartyProfile)
    (nlu : NluResult) : AgentResponse :=
  if nlu.matched .wrong_party then
    close_call { state with wrong_party_indicated := true, target_reached := "no" }
      "My apologies, I must have the wrong number. I\x27ll update my records."
      "wrong_party"
  else if nlu.matched .identity_question then
    let text := "I am an automated assistant calling regarding a personal business matter for "
      ++ pp.target_name ++ ". Is this them?"
    wrap_response text "request_target" [] { state with last_assistant_question := text }
  else if nlu.matched .affirmation then
    ask_verification_question { state with target_reached := "yes", phase := .verification }
  else if nlu.low_confidence_unknown then
    handle_low_confidence state "pre_verification" pp
  else
    let text := "I\x27m trying to reach " ++ pp.target_name ++ ". Is that you?"
    wrap_response text "request_target" [] { state with last_assistant_question := text }

/-- `_handle_verification`. -/
def handle_verification (env : DialogEnv) (state : CallState) (pp : PartyProfile)
    (ctx : AccountContext) (pc : PolicyConfig) (transcript : String)
    (nlu : NluResult) : AgentResponse :=
  let expected_zip := ctx.expected_zip
  if nlu.matched .uncomfortable ∨ nlu.matched .negation then
    let state1 := { state with reconduction_attempts := state.reconduction_attempts + 1 }
    if state1.reconduction_attempts ≤ 2 then
      let text := "I understand your concern for privacy. However, I can only discuss this matter with the account holder. Would it be better if I call you back at another time?"
      wrap_response text "negotiate" [] { state1 with last_assistant_question := text }
    else
      close_call state1
        "Since we are unable to verify your identity, I\x27ll have to end the call now. Goodbye."
        "verification_refused"
  else if nlu.matched .identity_question then
    let text := "I understand. To protect your privacy, I need to verify your identity before discussing details. Please confirm your 5-digit ZIP code."
    wrap_response text "verify_identity" [] { state with last_assistant_question := text }
  else
    let provided_zip := env.extract_zip transcript
    if opt_truthy provided_zip then
      if provided_zip.getD "" = expected_zip then
        deliver_disclosure_and_start_negotiation
          { state with right_party_verified := true, phase := .post_verification } pc ctx
      else
        let state1 := { state with verification_attempts := state.verification_attempts + 1 }
        if state1.verification_attempts ≥ 3 then
          close_call state1
            "I\x27m sorry, that doesn\x27t match our records. I\x27ll have to end the call for security. Goodbye."
            "verification_failed"
        else
          let text := "I\x27m sorry, that ZIP code doesn\x27t match our records. Could you please try again?"
          wrap_response text "verify_identity" [] { state1 with last_assistant_question := text }
    else if nlu.low_confidence_unknown then
      handle_low_confidence state "verification" pp
    else
      let state1 :=
        if transcript ≠ "" then
          { state with verification_attempts := state.verification_attempts + 1 }
        else state
      if transcript ≠ "" ∧ state1.verification_attempts ≥ 3 then
        close_call state1 "I\x27m unable to verify your identity at this time. Goodbye."
          "verification_failed"
      else
        let text := "To proceed, please tell me your 5-digit ZIP code clearly."
        wrap_response text "verify_identity" [] { state1 with last_assistant_question := text }

/-- `_handle_negotiation`.  The Python fall-through chain is rendered as one
`if`-cascade; each `if ...: return` of the source becomes one branch. -/
def handle_negotiation (env : DialogEnv) (te : TurnEvent) (state : CallState)
    (pp : PartyProfile) (ctx : AccountContext) (pc : PolicyConfig)
    (transcript : String) (nlu : NluResult) : AgentResponse :=
  let amount := get_amount_due ctx
  let last_q := str_lower state.last_assistant_question
  if state.last_assistant_intent = "deliver_disclosure" ∧ nlu.matched .dispute then
    escalate_and_end { state with dispute_flag := true, escalation_reason := some "dispute" }
  else if state.last_assistant_intent = "deliver_disclosure" ∧ nlu.matched .affirmation then
    confirm_ptp state te.current_local_date amount
  else if state.last_assistant_intent = "deliver_disclosure" ∧ nlu.matched .negation then
    let text := "I understand. What date before the end of the month would work for you?"
    wrap_response text "negotiate" [] { state with last_assistant_question := text }
  else if state.last_assistant_intent = "confirm_payment_date" ∧
      opt_truthy state.last_proposed_payment_date ∧ nlu.matched .affirmation then
    confirm_ptp state (state.last_proposed_payment_date.getD "") amount
  else if state.last_assistant_intent = "confirm_payment_date" ∧
      opt_truthy state.last_proposed_payment_date ∧ nlu.matched .negation then
    let text := "No problem. What exact date before month end works for you?"
    wrap_response text "negotiate" []
      { state with last_proposed_payment_date := none, last_assistant_question := text }
  else if nlu.matched .dispute then
    escalate_and_end { state with dispute_flag := true, escalation_reason := some "dispute" }
  else if nlu.matched .refusal then
    let state1 := { state with
      negotiation_proposals_count := state.negotiation_proposals_count + 1 }
    if state1.negotiation_proposals_count ≥ 2 then
      escalate_and_end { state1 with escalation_reason := some "hard_refusal" }
    else
      let text := "I understand things can be tight. However, we do need to find a way to resolve this $"
        ++ amount ++ ". Is there a partial amount you can handle before the end of the month?"
      wrap_response text "negotiate" [] { state1 with last_assistant_question := text }
  else if nlu.matched .uncertain then
    let text := "I can wait while you check your calendar. Or, would you prefer if I suggest a date near the end of the month?"
    wrap_response text "negotiate" [] { state with last_assistant_question := text }
  else if nlu.matched .busy then
    close_call state "I understand. We will try you again at a better time. Goodbye." "busy"
  else
    let normalized := env.normalize transcript te.current_local_date
      te.current_local_time te.timezone
    if normalized.ok ∧ opt_truthy normalized.date then
      let proposed_date := normalized.date.getD ""
      if ¬ is_current_month proposed_date te.current_local_date then
        let last_day := env.last_day_of_month_str te.current_local_date
        let text := "I\x27m sorry, but our current policy requires a commitment by the end of this month. Do you have any options before "
          ++ last_day ++ "?"
        wrap_response text "negotiate" [] { state with last_assistant_question := text }
      else if normalized.needs_confirmation then
        let friendly := env.format_date_for_voice proposed_date
        let text := "Just to confirm, do you mean " ++ friendly ++ "?"
        wrap_response text "confirm_payment_date" []
          { state with last_proposed_payment_date := some proposed_date,
                       last_assistant_question := text }
      else
        confirm_ptp
          { state with promise_to_pay :=
              { date := some proposed_date, amount := some amount, confirmed := true } }
          proposed_date amount
    else if is_today_payment_prompt last_q ∧
        looks_like_affirmative_today_response transcript then
      confirm_ptp state te.current_local_date amount
    else if is_today_payment_prompt last_q ∧ nlu.matched .negation then
      let text := "I understand. What date before the end of the month would work for you?"
      wrap_response text "negotiate" [] { state with last_assistant_question := text }
    else if is_today_payment_prompt last_q ∧ nlu.matched .affirmation then
      confirm_ptp state te.current_local_date amount
    else if is_exact_date_request_prompt last_q ∧ nlu.matched .affirmation then
      let text := "Thanks. Please tell me the exact payment date, for example February 20."
      wrap_response text "negotiate" [] { state with last_assistant_question := text }
    else if nlu.matched .negation ∨ nlu.matched .refusal then
      let state1 := { state with
        negotiation_proposals_count := state.negotiation_proposals_count + 1 }
      if state1.negotiation_proposals_count ≥ 2 then
        escalate_and_end { state1 with escalation_reason := some "multiple_refusals" }
      else
        let text := "I hear you. If a full payment isn\x27t possible, can you do a partial payment of $120.00 by the 25th of this month?"
        wrap_response text "negotiate" [] { state1 with last_assistant_question := text }
    else if state.last_assistant_intent = "deliver_disclosure" then
      let text := "Great. Can you take care of the $" ++ amount ++ " balance today?"
      wrap_response text "negotiate" [] { state with last_assistant_question := text }
    else if nlu.low_confidence_unknown then
      handle_low_confidence state "post_verification" pp
    else
      let text := "Can you find a day before the end of the month to settle this $"
        ++ amount ++ "?"
      wrap_response text "negotiate" [] { state with last_assistant_question := text }

/-- `start_call`: the initial outbound prompt. -/
def start_call (call_state : CallState) (pp : PartyProfile) : AgentResponse :=
  let state := { call_state with turn_count := call_state.turn_count + 1 }
  let text := "Hello, I\x27m looking for " ++ pp.target_name ++ ". Is this them?"
  wrap_response text "request_target" [] { state with last_assistant_question := text }

/-- `handle_turn`: the per-turn entry point of the dialog engine. -/
def handle_turn (env : DialogEnv) (te : TurnEvent) (call_state : CallState)
    (pp : PartyProfile) (ctx : AccountContext) (pc : PolicyConfig) : AgentResponse :=
  if call_state.phase = .ended then
    { assistant_text := "This call is already closed. Goodbye.",
      assistant_intent := "already_closed", actions := [], call_state := call_state }
  else
    let state := { call_state with turn_count := call_state.turn_count + 1 }
    if (state.turn_count : Int) ≥ pc.max_total_turns ∧ state.phase ≠ .ended then
      end_with_limit state
    else
      let transcript := py_strip (te.transcript.getD "")
      if te.event_type = .silence ∨ transcript = "" then
        handle_silence_turn state
      else
        let state1 := { state with silence_count := 0, last_user_utterance := transcript }
        let nlu := env.classify transcript
        let state2 :=
          if ¬ nlu.low_confidence_unknown then
            { state1 with clarification_attempts := 0 }
          else state1
        if nlu.matched .stop_request then
          close_call state2 "Understood. I will update our records. Goodbye." "cease_contact"
        else if nlu.matched .goodbye then
          close_call state2 "Understood. Thanks for your time. Goodbye." "user_ended"
        else if nlu.matched .human_handoff then
          escalate_and_end
            { state2 with escalation_flag := true,
                          escalation_reason := some "user_requested_human" }
        else if state2.phase = .pre_verification then
          handle_pre_verification state2 pp nlu
        else if state2.phase = .verification then
          handle_verification env state2 pp ctx pc transcript nlu
        else if state2.phase = .post_verification then
          handle_negotiation env te state2 pp ctx pc transcript nlu
        else
          close_call state2 "Thanks for your time. Goodbye." "closed"

/-- A fresh `CallState()` with all pydantic defaults. -/
def initial_call_state : CallState := {}

/-- Call states reachable from the initial state by `start_call` followed by
any sequence of `handle_turn` steps, for any classifier / normalizer / inputs. -/
inductive ReachableCallState : CallState → Prop where
  | start (pp : PartyProfile) :
      ReachableCallState (start_call initial_call_state pp).call_state
  | step (env : DialogEnv) (te : TurnEvent) (pp : PartyProfile)
      (ctx : AccountContext) (pc : PolicyConfig) {s : CallState} :
      ReachableCallState s →
      ReachableCallState (handle_turn env te s pp ctx pc).call_state

/-- A concrete policy snapshot for witnesses. -/
def demo_policy : CallPolicySnapshot :=
  { timezone := "America/Chicago", allowed_local_time_ranges := ["08:00-20:00"] }

/-- A concrete running job with one open attempt, for the C6 witness. -/
def c6_demo_job : OutboundCallJob :=
  { job_id := "job_1", idempotency_key := "job_k", trigger_source := .manual,
    campaign_id := "camp", priority := 100, created_at_utc := 0,
    scheduled_for_utc := 0, state := .running,
    payload := { account_ref := "acct" }, policy := demo_policy,
    attempts := [{ attempt_number := 1, started_at_utc := 50 }] }

/-- A concrete payload for the C2 witness. -/
def c2_demo_payload : OutboundCallPayload := { account_ref := "acct" }

/-- A timezone model pinning the local minute to noon and all instants to the
same local day, for concrete gate evaluations. -/
def c3_demo_tz : TzModel :=
  { local_minute_of_day := fun _ => 720,
    local_day := fun _ => 0,
    next_local_midnight := fun _ => 200000 }

/-- Policy for the concrete gate evaluations: cap 2, minimum gap 60 minutes,
one all-day window. -/
def c3_demo_policy : CallPolicySnapshot :=
  { timezone := "America/Chicago", allowed_local_time_ranges := ["00:00-23:59"],
    daily_attempt_cap := 2, min_gap_minutes := 60 }

/-- One counted ledger event 3474 seconds (57.9 minutes) before `now = 100000`. -/
def c3_demo_events : List LedgerEvent :=
  [{ recorded_at_utc := 96526, counts_toward_attempt := true }]

/-- A timezone model whose local minute is 06:01, for the C4 witness. -/
def c4_demo_tz : TzModel :=
  { local_minute_of_day := fun _ => 361,
    local_day := fun _ => 0,
    next_local_midnight := fun _ => 0 }

/-- Policy with the single wrapping window `"22:00-06:00"`. -/
def c4_demo_policy : CallPolicySnapshot :=
  { timezone := "America/Chicago", allowed_local_time_ranges := ["22:00-06:00"] }

/-- Two counted events on the local day of `now`, defining the exact-cap
boundary for the C5 witness. -/
def c5_demo_events : List LedgerEvent :=
  [{ recorded_at_utc := 90000, counts_toward_attempt := true },
   { recorded_at_utc := 95000, counts_toward_attempt := true },
   { recorded_at_utc := 96000, counts_toward_attempt := false }]

/-- The action-list shape every dialog-engine response satisfies: either no
actions, or the state is ended and the list runs
`set_outcome end_reason, (create_promise_to_pay | escalate_to_human)*,
end_call end_reason`. -/
def ActionsOk (r : AgentResponse) : Prop :=
  r.actions = [] ∨
  (r.call_state.phase = .ended ∧
   ∃ code, r.call_state.end_reason = some code ∧
     r.actions.head? = some (.set_outcome code) ∧
     r.actions.getLast? = some (.end_call code) ∧
     ∀ a ∈ (r.actions.drop 1).dropLast,
       (∃ d am, a = AgentAction.create_promise_to_pay d am) ∨
       (∃ rr, a = AgentAction.escalate_to_human rr))

/-- The promise-to-pay invariant: a confirmed promise implies an ended call
with `end_reason = "ptp_set"` and a recorded date and amount. -/
def PtpInvariant (s : CallState) : Prop :=
  s.promise_to_pay.confirmed = true →
    s.phase = .ended ∧ s.end_reason = some "ptp_set" ∧
    s.promise_to_pay.date ≠ none ∧ s.promise_to_pay.amount ≠ none

/-- An environment with a trivial classifier, for concrete dialog witnesses. -/
def c7_demo_env : DialogEnv :=
  { classify := fun _ => { matched := fun _ => false, low_confidence_unknown := true },
    normalize := fun _ _ _ _ => {},
    extract_zip := fun _ => none,
    last_day_of_month_str := fun _ => "",
    format_date_for_voice := fun _ => "" }

/-- An ended call state. -/
def c7_demo_state : CallState := { phase := .ended, end_reason := some "user_ended" }

/-- A concrete user turn event. -/
def c7_demo_te : TurnEvent :=
  { event_type := .user_utterance, transcript := some "hello" }

/-- The classifier/extractor behaviour of the happy-path transcript set, for
the C8 witness. -/
def c8_demo_env : DialogEnv :=
  { classify := fun t =>
      if t = "78701." then { matched := fun _ => false, low_confidence_unknown := true }
      else { matched := fun l => l == .affirmation, low_confidence_unknown := false },
    normalize := fun _ _ _ _ => {},
    extract_zip := fun t => if t = "78701." then some "78701" else none,
    last_day_of_month_str := fun _ => "February 28",
    format_date_for_voice := fun _ => "" }

def c8_demo_pp : PartyProfile := { target_name := "Alex Morgan" }

def c8_demo_ctx : AccountContext := { expected_zip := "78701", amount_due := "240.00" }

def c8_demo_te (txt : String) : TurnEvent :=
  { event_type := .user_utterance, transcript := some txt,
    current_local_date := "2026-02-10" }

/-- The happy-path chain: greet, confirm identity, verify ZIP, accept the
same-day payment ask. -/
def c8_s0 : CallState := (start_call initial_call_state c8_demo_pp).call_state

def c8_s1 : CallState :=
  (handle_turn c8_demo_env (c8_demo_te "This is Alex Morgan.") c8_s0 c8_demo_pp
    c8_demo_ctx {}).call_state

def c8_s2 : CallState :=
  (handle_turn c8_demo_env (c8_demo_te "78701.") c8_s1 c8_demo_pp
    c8_demo_ctx {}).call_state

def c8_s3 : CallState :=
  (handle_turn c8_demo_env (c8_demo_te "Yes, I can pay today.") c8_s2 c8_demo_pp
    c8_demo_ctx {}).call_state

/-- A stop-request turn, closing the call, for the C10 witness. -/
def c10_demo_env : DialogEnv :=
  { classify := fun _ =>
      { matched := fun l => l == .stop_request, low_confidence_unknown := false },
    normalize := fun _ _ _ _ => {},
    extract_zip := fun _ => none,
    last_day_of_month_str := fun _ => "",
    format_date_for_voice := fun _ => "" }

def c10_demo_te : TurnEvent :=
  { event_type := .user_utterance, transcript := some "stop calling me" }

def c10_demo_state : CallState := (start_call initial_call_state {}).call_state

/-! ### Voice-first filter analysis

Adjacent-pair counting over character lists: `cutf` flags a sentence cut
point (terminator immediately followed by whitespace), `wsf` flags two
adjacent whitespace characters, `qwsf` flags a question mark immediately
followed by whitespace. -/

def cutf (a b : Char) : Bool := is_sentence_term a && py_is_space b

def wsf (a b : Char) : Bool := py_is_space a && py_is_space b

def qwsf (a b : Char) : Bool := (a = '?') && py_is_space b

/-- Number of adjacent pairs flagged by `f`. -/
def pair_count (f : Char → Char → Bool) : List Char → Nat
  | [] => 0
  | [_] => 0
  | a :: b :: rest => (if f a b then 1 else 0) + pair_count f (b :: rest)

def SentNorm (g : List Char) : Prop :=
  g ≠ [] ∧ pair_count cutf g = 0 ∧ pair_count wsf g = 0 ∧
  (∀ c ∈ g, py_is_space c = true → c = ' ') ∧
  (∀ b, g.head? = some b → py_is_space b = false) ∧
  (∀ b, g.getLast? = some b → py_is_space b = false)

def c9_demo_s : String := "Great. Can you take care of the $240.00 balance today?"

def c9_demo_a : List Char := ("Great. Can you take care of the ").data

def c9_demo_d : List Char := ("$240.00").data

def c9_demo_b : List Char := (" balance today?").data

/-! ## Theorems -/

/-- C1: the job state machine admits exactly the transition table of the spec
— each listed `(state, event)` pair maps to its listed target, every other
pair is a hard error (`none`), and consequently a job in a terminal state
(`succeeded`, `dead_letter`, `canceled`) never transitions again. -/
theorem c1_transition_table_exact :
    (transition_state .queued .lease = some .leased ∧
     transition_state .leased .start = some .running ∧
     transition_state .running .call_succeeded = some .succeeded ∧
     transition_state .running .call_failed = some .failed ∧
     transition_state .leased .schedule_retry = some .waiting_retry ∧
     transition_state .failed .schedule_retry = some .waiting_retry ∧
     transition_state .waiting_retry .retry_ready = some .queued ∧
     transition_state .failed .exhaust_retries = some .dead_letter ∧
     transition_state .queued .cancel = some .canceled ∧
     transition_state .leased .cancel = some .canceled ∧
     transition_state .running .cancel = some .canceled ∧
     transition_state .waiting_retry .cancel = some .canceled) ∧
    (∀ s e t, transition_state s e = some t →
      (s, e, t) ∈ ([(.queued, .lease, .leased),
        (.leased, .start, .running),
        (.running, .call_succeeded, .succeeded),
        (.running, .call_failed, .failed),
        (.leased, .schedule_retry, .waiting_retry),
        (.failed, .schedule_retry, .waiting_retry),
        (.waiting_retry, .retry_ready, .queued),
        (.failed, .exhaust_retries, .dead_letter),
        (.queued, .cancel, .canceled),
        (.leased, .cancel, .canceled),
        (.running, .cancel, .canceled),
        (.waiting_retry, .cancel, .canceled)] :
          List (JobState × JobEvent × JobState))) ∧
    (∀ s, is_terminal_state s = true → ∀ e, transition_state s e = none) := by
  decide

/-- C6: for a running job with at least one attempt, `mark_failed` closes the
current attempt with the error code; with remaining budget it schedules a
retry at `now + min(base * 2^(n-1), max_delay)` into `waiting_retry` with the
lease cleared, otherwise it dead-letters the job with
`failure_reason = error_code`. -/
theorem c6_mark_failed_and_schedule_retry (job : OutboundCallJob)
    (error_code : String) (now : Int)
    (hs : job.state = .running) (ha : job.attempts ≠ []) :
    ∃ last j2, job.attempts.getLast? = some last ∧
      job.mark_failed_and_schedule_retry error_code now = .ok j2 ∧
      j2.attempts = job.attempts.dropLast ++
        [{ last with ended_at_utc := some now, error_code := some error_code }] ∧
      (((job.attempts.length : Int) < job.retry_policy.max_attempts →
        j2.state = .waiting_retry ∧
        j2.next_attempt_at_utc = some (now +
          min (job.retry_policy.base_delay_seconds * 2 ^ (job.attempts.length - 1))
            job.retry_policy.max_delay_seconds) ∧
        j2.lease_owner = none ∧ j2.lease_expires_at_utc = none) ∧
       (¬ (job.attempts.length : Int) < job.retry_policy.max_attempts →
        j2.state = .dead_letter ∧ j2.failure_reason = some error_code)) := by
  obtain ⟨last, hlast⟩ : ∃ l, job.attempts.getLast? = some l := by
    cases hj : job.attempts.getLast? with
    | none => exact absurd (List.getLast?_eq_none_iff.mp hj) ha
    | some l => exact ⟨l, rfl⟩
  have hlen : 1 ≤ job.attempts.length := List.length_pos.mpr ha
  have hexp : (max 0 ((job.attempts.length : Int) - 1)).toNat = job.attempts.length - 1 := by
    omega
  have hsamelen :
      (job.attempts.dropLast ++
        [{ last with ended_at_utc := some now, error_code := some error_code }]).length =
      job.attempts.length := by
    simp [List.length_dropLast]
    omega
  by_cases hb : (job.attempts.length : Int) < job.retry_policy.max_attempts
  · have key : job.mark_failed_and_schedule_retry error_code now =
        .ok { job with
          attempts := job.attempts.dropLast ++
            [{ last with ended_at_utc := some now, error_code := some error_code }],
          state := .waiting_retry,
          next_attempt_at_utc := some (now +
            min (job.retry_policy.base_delay_seconds * 2 ^ (job.attempts.length - 1))
              job.retry_policy.max_delay_seconds),
          lease_owner := none, lease_expires_at_utc := none } := by
      simp only [OutboundCallJob.mark_failed_and_schedule_retry, hlast, hs,
        OutboundCallJob.can_attempt_again, compute_retry_delay_seconds]
      simp only [transition_state]
      rw [if_neg (by simp [hsamelen, hb])]
      simp [hsamelen, hexp]
    exact ⟨last, _, hlast, key, rfl,
      ⟨fun _ => ⟨rfl, rfl, rfl, rfl⟩, fun hc => absurd hb hc⟩⟩
  · have key : job.mark_failed_and_schedule_retry error_code now =
        .ok { job with
          attempts := job.attempts.dropLast ++
            [{ last with ended_at_utc := some now, error_code := some error_code }],
          state := .dead_letter,
          failure_reason := some error_code } := by
      simp only [OutboundCallJob.mark_failed_and_schedule_retry, hlast, hs,
        OutboundCallJob.can_attempt_again, compute_retry_delay_seconds]
      simp only [transition_state]
      rw [if_pos (by simp [hsamelen, hb])]
    exact ⟨last, _, hlast, key, rfl,
      ⟨fun hc => absurd hc hb, fun _ => ⟨rfl, rfl⟩⟩⟩

/-- C2: `enqueue` derives the idempotency key as the digest fingerprint of
`campaign|account_ref|scheduled`; a first call with a fresh key persists a
single `queued` job with `next_attempt_at_utc = scheduled_for_utc` and
returns `created = true`; any call whose derived key is already present
returns the existing job with `created = false` and leaves the collection
unchanged; at most one job per key is ever persisted. -/
theorem c2_enqueue_idempotent (digest : String → String) :
    (∀ jid trig campaign payload policy sched prio retry now,
      (create_job digest jid trig campaign payload policy sched prio retry now).idempotency_key =
        build_idempotency_key digest campaign payload.account_ref (toString (sched.getD now))) ∧
    (∀ jobs jid trig campaign payload policy sched prio retry now,
      find_by_idempotency jobs
        (build_idempotency_key digest campaign payload.account_ref
          (toString (sched.getD now))) = none →
      (enqueue_job digest jobs jid now trig campaign payload policy sched prio retry).1.2
          = true ∧
      (enqueue_job digest jobs jid now trig campaign payload policy sched prio retry).1.1.state
          = .queued ∧
      (enqueue_job digest jobs jid now trig campaign payload policy sched prio
          retry).1.1.next_attempt_at_utc = some (sched.getD now) ∧
      (enqueue_job digest jobs jid now trig campaign payload policy sched prio
          retry).1.1.scheduled_for_utc = sched.getD now ∧
      (enqueue_job digest jobs jid now trig campaign payload policy sched prio retry).2
          = jobs ++ [(enqueue_job digest jobs jid now trig campaign payload policy sched
              prio retry).1.1] ∧
      find_by_idempotency
          (enqueue_job digest jobs jid now trig campaign payload policy sched prio retry).2
          (build_idempotency_key digest campaign payload.account_ref
            (toString (sched.getD now))) =
        some (enqueue_job digest jobs jid now trig campaign payload policy sched prio
          retry).1.1) ∧
    (∀ jobs jid trig campaign payload policy sched prio retry now ex,
      find_by_idempotency jobs
        (build_idempotency_key digest campaign payload.account_ref
          (toString (sched.getD now))) = some ex →
      enqueue_job digest jobs jid now trig campaign payload policy sched prio retry =
        ((ex, false), jobs)) ∧
    (∀ jobs jid trig campaign payload policy sched prio retry now key,
      (jobs.filter (fun j => j.idempotency_key == key)).length ≤ 1 →
      (((enqueue_job digest jobs jid now trig campaign payload policy sched prio
          retry).2).filter (fun j => j.idempotency_key == key)).length ≤ 1) := by
  refine ⟨fun _ _ _ _ _ _ _ _ _ => rfl, ?_, ?_, ?_⟩
  · intro jobs jid trig campaign payload policy sched prio retry now h
    simp only [enqueue_job]
    rw [show (create_job digest jid trig campaign payload policy sched prio retry
        now).idempotency_key =
      build_idempotency_key digest campaign payload.account_ref
        (toString (sched.getD now)) from rfl, h]
    refine ⟨rfl, rfl, rfl, rfl, rfl, ?_⟩
    simp only [find_by_idempotency] at h ⊢
    rw [List.find?_append, h]
    simp [create_job, build_idempotency_key]
  · intro jobs jid trig campaign payload policy sched prio retry now ex h
    simp only [enqueue_job]
    rw [show (create_job digest jid trig campaign payload policy sched prio retry
        now).idempotency_key =
      build_idempotency_key digest campaign payload.account_ref
        (toString (sched.getD now)) from rfl, h]
  · intro jobs jid trig campaign payload policy sched prio retry now key h
    simp only [enqueue_job]
    cases hf : find_by_idempotency jobs
        (create_job digest jid trig campaign payload policy sched prio retry
          now).idempotency_key with
    | some ex => simpa using h
    | none =>
      simp only [List.filter_append, List.length_append]
      by_cases hk : (create_job digest jid trig campaign payload policy sched prio retry
          now).idempotency_key = key
      · have hjobs : jobs.filter (fun j => j.idempotency_key == key) = [] := by
          simp only [find_by_idempotency] at hf
          rw [List.filter_eq_nil_iff]
          intro j hj
          have := List.find?_eq_none.mp hf j hj
          rw [hk] at this
          simpa using this
        simp [hjobs, hk]
      · have : ((create_job digest jid trig campaign payload policy sched prio retry
            now).idempotency_key == key) = false := by
          simpa using hk
        simpa [List.filter, this] using h

/-- Witness for C6 at a concrete running job with one attempt and budget for
retries (`1 < max_attempts = 3`). -/
theorem c6_mark_failed_and_schedule_retry_witness :
    c6_demo_job.state = .running ∧ c6_demo_job.attempts ≠ [] ∧
    (∃ last j2, c6_demo_job.attempts.getLast? = some last ∧
      c6_demo_job.mark_failed_and_schedule_retry "dial_failed" 100 = .ok j2 ∧
      j2.attempts = c6_demo_job.attempts.dropLast ++
        [{ last with ended_at_utc := some 100, error_code := some "dial_failed" }] ∧
      (((c6_demo_job.attempts.length : Int) < c6_demo_job.retry_policy.max_attempts →
        j2.state = .waiting_retry ∧
        j2.next_attempt_at_utc = some (100 +
          min (c6_demo_job.retry_policy.base_delay_seconds *
              2 ^ (c6_demo_job.attempts.length - 1))
            c6_demo_job.retry_policy.max_delay_seconds) ∧
        j2.lease_owner = none ∧ j2.lease_expires_at_utc = none) ∧
       (¬ (c6_demo_job.attempts.length : Int) < c6_demo_job.retry_policy.max_attempts →
        j2.state = .dead_letter ∧ j2.failure_reason = some "dial_failed"))) :=
  ⟨rfl, by decide,
    c6_mark_failed_and_schedule_retry c6_demo_job "dial_failed" 100 rfl (by decide)⟩

/-- Witness for C2 with `digest = id`: a first enqueue into the empty
collection creates the job, and a repeated enqueue over the resulting
collection returns it with `created = false`, leaving the collection as is. -/
theorem c2_enqueue_idempotent_witness :
    (find_by_idempotency []
      (build_idempotency_key id "camp" c2_demo_payload.account_ref
        (toString ((none : Option Int).getD 5))) = none) ∧
    ((enqueue_job id [] "job_a" 5 .manual "camp" c2_demo_payload demo_policy none 100
        none).1.2 = true ∧
     (enqueue_job id [] "job_a" 5 .manual "camp" c2_demo_payload demo_policy none 100
        none).1.1.state = .queued ∧
     (enqueue_job id [] "job_a" 5 .manual "camp" c2_demo_payload demo_policy none 100
        none).1.1.next_attempt_at_utc = some ((none : Option Int).getD 5) ∧
     (enqueue_job id [] "job_a" 5 .manual "camp" c2_demo_payload demo_policy none 100
        none).1.1.scheduled_for_utc = (none : Option Int).getD 5 ∧
     (enqueue_job id [] "job_a" 5 .manual "camp" c2_demo_payload demo_policy none 100
        none).2 = [] ++ [(enqueue_job id [] "job_a" 5 .manual "camp" c2_demo_payload
          demo_policy none 100 none).1.1] ∧
     find_by_idempotency
        (enqueue_job id [] "job_a" 5 .manual "camp" c2_demo_payload demo_policy none 100
          none).2
        (build_idempotency_key id "camp" c2_demo_payload.account_ref
          (toString ((none : Option Int).getD 5))) =
       some (enqueue_job id [] "job_a" 5 .manual "camp" c2_demo_payload demo_policy none
         100 none).1.1) ∧
    (find_by_idempotency
        (enqueue_job id [] "job_a" 5 .manual "camp" c2_demo_payload demo_policy none 100
          none).2
        (build_idempotency_key id "camp" c2_demo_payload.account_ref
          (toString ((none : Option Int).getD 5))) =
      some (enqueue_job id [] "job_a" 5 .manual "camp" c2_demo_payload demo_policy none
        100 none).1.1 →
     enqueue_job id
        (enqueue_job id [] "job_a" 5 .manual "camp" c2_demo_payload demo_policy none 100
          none).2 "job_b" 5 .manual "camp" c2_demo_payload demo_policy none 100 none =
       (((enqueue_job id [] "job_a" 5 .manual "camp" c2_demo_payload demo_policy none 100
           none).1.1, false),
        (enqueue_job id [] "job_a" 5 .manual "camp" c2_demo_payload demo_policy none 100
          none).2)) := by
  refine ⟨rfl, ?_, ?_⟩
  · exact (c2_enqueue_idempotent id).2.1 [] "job_a" .manual "camp" c2_demo_payload
      demo_policy none 100 none 5 rfl
  · intro h
    exact (c2_enqueue_idempotent id).2.2.1
      (enqueue_job id [] "job_a" 5 .manual "camp" c2_demo_payload demo_policy none 100
        none).2 "job_b" .manual "camp" c2_demo_payload demo_policy none 100 none 5 _ h

/-- C3 amended: under no suppression, an allowed local time, and counted
attempts below the cap, an elapsed gap strictly below `min_gap_minutes`
yields `blocked_policy_min_gap`, retryable, with
`remaining = max(1, round_half_even(min_gap_minutes − elapsed_minutes))`
minutes, `retry_after_seconds = remaining · 60`, and
`min_gap_blocked_minutes_remaining = remaining` (the source rounds with
Python `round`, not `ceil`, and clamps below at one minute). -/
theorem c3_min_gap_block_amended (tz : TzModel) (policy : CallPolicySnapshot)
    (flags : SuppressionFlags) (events : List LedgerEvent) (now last_dt : Int)
    (hdnc : flags.dnc = false) (hcc : flags.cease_contact = false)
    (hlh : flags.legal_hold = false)
    (hwin : is_local_time_allowed policy (tz.local_minute_of_day now) = true)
    (hcap : ¬ ((count_attempts_for_local_day tz events (tz.local_day now) : Int) ≥
      policy.daily_attempt_cap))
    (hlast : get_last_counted_attempt_at_utc events = some last_dt)
    (hgap : ((now - last_dt : Int) : ℚ) / 60 < (policy.min_gap_minutes : ℚ)) :
    evaluate_pre_dial_gate tz policy flags events now =
      { allowed := false, reason_code := "blocked_policy_min_gap", retryable := true,
        attempts_today := count_attempts_for_local_day tz events (tz.local_day now),
        retry_after_seconds := some (max 1 (round_half_even
          ((policy.min_gap_minutes : ℚ) - ((now - last_dt : Int) : ℚ) / 60)) * 60),
        min_gap_blocked_minutes_remaining := some (max 1 (round_half_even
          ((policy.min_gap_minutes : ℚ) - ((now - last_dt : Int) : ℚ) / 60))) } := by
  have hgap2 : ((now : ℚ) - (last_dt : ℚ)) / 60 < (policy.min_gap_minutes : ℚ) := by
    push_cast at hgap
    exact hgap
  simp only [evaluate_pre_dial_gate, hdnc, hcc, hlh, hwin, hlast]
  simp [hcap, hgap, hgap2]

/-- Counterexample to C3: with 57.9 elapsed minutes of a 60-minute gap, the
gate returns `retry_after_seconds = 120` and
`min_gap_blocked_minutes_remaining = 2` (Python `round(2.1) = 2`), while the
claimed `ceil(60 − 57.9) · 60` is `180` (3 minutes). -/
theorem c3_min_gap_counterexample :
    evaluate_pre_dial_gate c3_demo_tz c3_demo_policy {} c3_demo_events 100000 =
      { allowed := false, reason_code := "blocked_policy_min_gap", retryable := true,
        attempts_today := 1, retry_after_seconds := some 120,
        min_gap_blocked_minutes_remaining := some 2 } ∧
    ⌈(60 : ℚ) - (3474 : ℚ) / 60⌉ * 60 = 180 ∧
    (120 : Int) ≠ 180 := by
  have hval : ((c3_demo_policy.min_gap_minutes : ℚ) -
      ((100000 - 96526 : Int) : ℚ) / 60) = 21 / 10 := by
    norm_num [c3_demo_policy]
  have hfloor : ⌊(21 : ℚ) / 10⌋ = 2 := by
    rw [show ((2 : Int)) = ((2 : Int)) from rfl, Int.floor_eq_iff]
    norm_num
  have hround : round_half_even ((c3_demo_policy.min_gap_minutes : ℚ) -
      ((100000 - 96526 : Int) : ℚ) / 60) = 2 := by
    rw [hval]
    simp only [round_half_even, hfloor]
    norm_num
  have hgap : ((100000 - 96526 : Int) : ℚ) / 60 <
      (c3_demo_policy.min_gap_minutes : ℚ) := by
    norm_num [c3_demo_policy]
  have h := c3_min_gap_block_amended c3_demo_tz c3_demo_policy {} c3_demo_events
    100000 96526 rfl rfl rfl (by decide) (by decide) (by decide) hgap
  refine ⟨?_, ?_, by decide⟩
  · rw [h, hround]
    decide
  · have hceil : ⌈(60 : ℚ) - (3474 : ℚ) / 60⌉ = 3 := by
      rw [show ((60 : ℚ) - (3474 : ℚ) / 60) = 21 / 10 by norm_num]
      rw [Int.ceil_eq_iff]
      norm_num
    rw [hceil]
    norm_num

/-- Witness for the amended C3 at the concrete inputs of the counterexample. -/
theorem c3_min_gap_block_amended_witness :
    ((c3_demo_tz.local_minute_of_day 100000 = 720) ∧
     is_local_time_allowed c3_demo_policy 720 = true ∧
     ¬ ((count_attempts_for_local_day c3_demo_tz c3_demo_events
        (c3_demo_tz.local_day 100000) : Int) ≥ c3_demo_policy.daily_attempt_cap) ∧
     get_last_counted_attempt_at_utc c3_demo_events = some 96526 ∧
     ((100000 - 96526 : Int) : ℚ) / 60 < ((c3_demo_policy.min_gap_minutes : Int) : ℚ)) ∧
    evaluate_pre_dial_gate c3_demo_tz c3_demo_policy {} c3_demo_events 100000 =
      { allowed := false, reason_code := "blocked_policy_min_gap", retryable := true,
        attempts_today := count_attempts_for_local_day c3_demo_tz c3_demo_events
          (c3_demo_tz.local_day 100000),
        retry_after_seconds := some (max 1 (round_half_even
          ((c3_demo_policy.min_gap_minutes : ℚ) - ((100000 - 96526 : Int) : ℚ) / 60)) * 60),
        min_gap_blocked_minutes_remaining := some (max 1 (round_half_even
          ((c3_demo_policy.min_gap_minutes : ℚ) - ((100000 - 96526 : Int) : ℚ) / 60))) } :=
  ⟨⟨rfl, by decide, by decide, by decide, by norm_num [c3_demo_policy]⟩,
    c3_min_gap_block_amended c3_demo_tz c3_demo_policy {} c3_demo_events 100000 96526
      rfl rfl rfl (by decide) (by decide) (by decide)
      (by norm_num [c3_demo_policy])⟩

/-- C4: a window string `S-E` admits a local minute `t` iff `S ≤ t ≤ E` when
`S ≤ E` and `t ≥ S ∨ t ≤ E` when `S > E` (both endpoints inclusive, wrapping
past midnight); for a non-empty window list the gate admits `t` iff some
window does; when the local time is allowed by no window and no suppression
flag is set the decision is `blocked_policy_outside_call_window`, retryable,
with `retry_after_seconds = 900`; and concretely `"22:00-06:00"` admits 23:30
and 05:00 and rejects 06:01. -/
theorem c4_call_window_semantics :
    (∀ (t s e : Int) (w : String), parse_window w = some (s, e) →
      (window_allows t w = true ↔
        (if s ≤ e then s ≤ t ∧ t ≤ e else t ≥ s ∨ t ≤ e))) ∧
    (∀ (policy : CallPolicySnapshot) (t : Int),
      policy.allowed_local_time_ranges ≠ [] →
      is_local_time_allowed policy t =
        policy.allowed_local_time_ranges.any (window_allows t)) ∧
    (∀ (tz : TzModel) (policy : CallPolicySnapshot) (flags : SuppressionFlags)
      (events : List LedgerEvent) (now : Int),
      flags.dnc = false → flags.cease_contact = false → flags.legal_hold = false →
      is_local_time_allowed policy (tz.local_minute_of_day now) = false →
      evaluate_pre_dial_gate tz policy flags events now =
        { allowed := false, reason_code := "blocked_policy_outside_call_window",
          retryable := true, attempts_today := 0, retry_after_seconds := some 900 }) ∧
    (parse_window "22:00-06:00" = some (1320, 360) ∧
     window_allows 1410 "22:00-06:00" = true ∧
     window_allows 300 "22:00-06:00" = true ∧
     window_allows 361 "22:00-06:00" = false) := by
  refine ⟨?_, ?_, ?_, by decide, by decide, by decide, by decide⟩
  · intro t s e w h
    by_cases hse : s ≤ e <;> simp [window_allows, h, hse]
  · intro policy t h
    simp [is_local_time_allowed, h]
  · intro tz policy flags events now hdnc hcc hlh hwin
    simp only [evaluate_pre_dial_gate, hdnc, hcc, hlh, hwin]
    simp

/-- Witness for C4: the window semantics at `t = 1410` over the parsed
`"22:00-06:00"`, the non-empty-list gate equation, and the blocked decision
at local time 06:01. -/
theorem c4_call_window_semantics_witness :
    (parse_window "22:00-06:00" = some (1320, 360) ∧
     (window_allows 1410 "22:00-06:00" = true ↔
       (if (1320 : Int) ≤ 360 then (1320 : Int) ≤ 1410 ∧ (1410 : Int) ≤ 360
        else (1410 : Int) ≥ 1320 ∨ (1410 : Int) ≤ 360))) ∧
    (c4_demo_policy.allowed_local_time_ranges ≠ [] ∧
     is_local_time_allowed c4_demo_policy 361 =
       c4_demo_policy.allowed_local_time_ranges.any (window_allows 361)) ∧
    (is_local_time_allowed c4_demo_policy
        (c4_demo_tz.local_minute_of_day 100000) = false ∧
     evaluate_pre_dial_gate c4_demo_tz c4_demo_policy {} [] 100000 =
       { allowed := false, reason_code := "blocked_policy_outside_call_window",
         retryable := true, attempts_today := 0, retry_after_seconds := some 900 }) :=
  ⟨⟨by decide, c4_call_window_semantics.1 1410 1320 360 "22:00-06:00" (by decide)⟩,
   ⟨by decide, c4_call_window_semantics.2.1 c4_demo_policy 361 (by decide)⟩,
   ⟨by decide, c4_call_window_semantics.2.2.1 c4_demo_tz c4_demo_policy {} [] 100000
      rfl rfl rfl (by decide)⟩⟩

/-- C5: whenever no suppression flag is set and the local time passes the
window check, the decision's `attempts_today` equals the number of counted
ledger events whose recorded instant falls on the policy-timezone local day
of `now`; and whenever that count is at least `daily_attempt_cap` (including
exact equality) the decision is `blocked_policy_daily_attempt_cap`,
retryable, with `retry_after_seconds = max(60, seconds until the next local
midnight)`. -/
theorem c5_daily_cap (tz : TzModel) (policy : CallPolicySnapshot)
    (flags : SuppressionFlags) (events : List LedgerEvent) (now : Int)
    (hdnc : flags.dnc = false) (hcc : flags.cease_contact = false)
    (hlh : flags.legal_hold = false)
    (hwin : is_local_time_allowed policy (tz.local_minute_of_day now) = true) :
    (evaluate_pre_dial_gate tz policy flags events now).attempts_today =
      (events.filter (fun e => e.counts_toward_attempt &&
        tz.local_day e.recorded_at_utc == tz.local_day now)).length ∧
    ((count_attempts_for_local_day tz events (tz.local_day now) : Int) ≥
        policy.daily_attempt_cap →
      evaluate_pre_dial_gate tz policy flags events now =
        { allowed := false, reason_code := "blocked_policy_daily_attempt_cap",
          retryable := true,
          attempts_today := count_attempts_for_local_day tz events (tz.local_day now),
          retry_after_seconds := some (max 60 (tz.next_local_midnight now - now)) }) := by
  constructor
  · simp only [evaluate_pre_dial_gate, hdnc, hcc, hlh, hwin]
    simp only [Bool.false_eq_true, if_false, not_true, if_neg, eq_self_iff_true]
    split
    · rfl
    · split
      · split
        · rfl
        · rfl
      · rfl
  · intro hcap
    simp only [evaluate_pre_dial_gate, hdnc, hcc, hlh, hwin]
    simp [hcap]

/-- Witness for C5 at exactly `daily_attempt_cap = 2` counted attempts. -/
theorem c5_daily_cap_witness :
    (is_local_time_allowed c3_demo_policy
      (c3_demo_tz.local_minute_of_day 100000) = true) ∧
    (evaluate_pre_dial_gate c3_demo_tz c3_demo_policy {} c5_demo_events
        100000).attempts_today =
      (c5_demo_events.filter (fun e => e.counts_toward_attempt &&
        c3_demo_tz.local_day e.recorded_at_utc == c3_demo_tz.local_day 100000)).length ∧
    ((count_attempts_for_local_day c3_demo_tz c5_demo_events
        (c3_demo_tz.local_day 100000) : Int) ≥ c3_demo_policy.daily_attempt_cap ∧
     evaluate_pre_dial_gate c3_demo_tz c3_demo_policy {} c5_demo_events 100000 =
       { allowed := false, reason_code := "blocked_policy_daily_attempt_cap",
         retryable := true,
         attempts_today := count_attempts_for_local_day c3_demo_tz c5_demo_events
           (c3_demo_tz.local_day 100000),
         retry_after_seconds := some (max 60
           (c3_demo_tz.next_local_midnight 100000 - 100000)) }) :=
  ⟨by decide,
   (c5_daily_cap c3_demo_tz c3_demo_policy {} c5_demo_events 100000
     rfl rfl rfl (by decide)).1,
   by decide,
   (c5_daily_cap c3_demo_tz c3_demo_policy {} c5_demo_events 100000
     rfl rfl rfl (by decide)).2 (by decide)⟩

/-! ### Dialog-engine helper lemmas -/

theorem wrap_response_actions (t i : String) (a : List AgentAction) (s : CallState) :
    (wrap_response t i a s).actions = a := by
  simp only [wrap_response]

theorem wrap_response_phase (t i : String) (a : List AgentAction) (s : CallState) :
    (wrap_response t i a s).call_state.phase = s.phase := by
  simp only [wrap_response]
  split <;> rfl

theorem wrap_response_end_reason (t i : String) (a : List AgentAction) (s : CallState) :
    (wrap_response t i a s).call_state.end_reason = s.end_reason := by
  simp only [wrap_response]
  split <;> rfl

theorem wrap_response_ptp (t i : String) (a : List AgentAction) (s : CallState) :
    (wrap_response t i a s).call_state.promise_to_pay = s.promise_to_pay := by
  simp only [wrap_response]
  split <;> rfl

theorem actions_ok_wrap_nil (t i : String) (s : CallState) :
    ActionsOk (wrap_response t i [] s) :=
  Or.inl rfl

theorem actions_ok_close (s : CallState) (t o : String) :
    ActionsOk (close_call s t o) := by
  right
  refine ⟨?_, o, ?_, rfl, rfl, ?_⟩
  · rw [close_call, wrap_response_phase]
  · rw [close_call, wrap_response_end_reason]
  · intro a ha
    simp [close_call, wrap_response_actions] at ha

theorem actions_ok_confirm_ptp (s : CallState) (d am : String) :
    ActionsOk (confirm_ptp s d am) := by
  right
  refine ⟨?_, "ptp_set", ?_, rfl, rfl, ?_⟩
  · rw [confirm_ptp, wrap_response_phase]
  · rw [confirm_ptp, wrap_response_end_reason]
  · intro a ha
    simp only [confirm_ptp, wrap_response_actions, List.drop, List.dropLast,
      List.mem_singleton] at ha
    exact Or.inl ⟨d, am, ha⟩

theorem actions_ok_escalate_and_end (s : CallState) :
    ActionsOk (escalate_and_end s) := by
  right
  refine ⟨?_, _, ?_, rfl, rfl, ?_⟩
  · rw [escalate_and_end, wrap_response_phase]
  · rw [escalate_and_end, wrap_response_end_reason]
  · intro a ha
    simp only [escalate_and_end, wrap_response_actions, List.drop, List.dropLast,
      List.mem_singleton] at ha
    exact Or.inr ⟨s.escalation_reason, ha⟩

theorem actions_ok_handle_silence (s : CallState) :
    ActionsOk (handle_silence_turn s) := by
  rw [handle_silence_turn]
  split
  · exact actions_ok_close _ _ _
  · exact actions_ok_wrap_nil _ _ _

theorem actions_ok_end_with_limit (s : CallState) :
    ActionsOk (end_with_limit s) :=
  actions_ok_close _ _ _

theorem actions_ok_ask_verification (s : CallState) :
    ActionsOk (ask_verification_question s) :=
  actions_ok_wrap_nil _ _ _

theorem actions_ok_low_confidence (s : CallState) (ph : String) (pp : PartyProfile) :
    ActionsOk (handle_low_confidence s ph pp) := by
  rw [handle_low_confidence]
  split
  · exact actions_ok_wrap_nil _ _ _
  · exact actions_ok_escalate_and_end _

theorem actions_ok_deliver_disclosure (s : CallState) (pc : PolicyConfig)
    (ctx : AccountContext) :
    ActionsOk (deliver_disclosure_and_start_negotiation s pc ctx) :=
  actions_ok_wrap_nil _ _ _

/-- `ActionsOk` is preserved through an `if`: used to dismantle the
handler branch trees. -/
theorem actions_ok_ite (c : Prop) [Decidable c] (a b : AgentResponse)
    (ha : ActionsOk a) (hb : ActionsOk b) : ActionsOk (if c then a else b) := by
  split
  · exact ha
  · exact hb

theorem ptp_inv_of_not_confirmed {s : CallState}
    (h : s.promise_to_pay.confirmed = false) : PtpInvariant s := by
  intro hc
  rw [h] at hc
  cases hc

theorem ptp_inv_wrap (t i : String) (a : List AgentAction) {s : CallState}
    (h : s.promise_to_pay.confirmed = false) :
    PtpInvariant (wrap_response t i a s).call_state := by
  intro hc
  rw [wrap_response_ptp, h] at hc
  cases hc

theorem ptp_inv_close (t o : String) {s : CallState}
    (h : s.promise_to_pay.confirmed = false) :
    PtpInvariant (close_call s t o).call_state := by
  rw [close_call]
  exact ptp_inv_wrap _ _ _ h

theorem ptp_inv_escalate {s : CallState}
    (h : s.promise_to_pay.confirmed = false) :
    PtpInvariant (escalate_and_end s).call_state := by
  rw [escalate_and_end]
  exact ptp_inv_wrap _ _ _ h

theorem ptp_inv_confirm_ptp (s : CallState) (d am : String) :
    PtpInvariant (confirm_ptp s d am).call_state := by
  intro _
  refine ⟨?_, ?_, ?_, ?_⟩
  · rw [confirm_ptp, wrap_response_phase]
  · rw [confirm_ptp, wrap_response_end_reason]
  · rw [confirm_ptp, wrap_response_ptp]
    simp
  · rw [confirm_ptp, wrap_response_ptp]
    simp

theorem ptp_inv_silence {s : CallState}
    (h : s.promise_to_pay.confirmed = false) :
    PtpInvariant (handle_silence_turn s).call_state := by
  rw [handle_silence_turn]
  split
  · exact ptp_inv_close _ _ h
  · exact ptp_inv_wrap _ _ _ h

theorem ptp_inv_end_with_limit {s : CallState}
    (h : s.promise_to_pay.confirmed = false) :
    PtpInvariant (end_with_limit s).call_state := by
  rw [end_with_limit]
  exact ptp_inv_close _ _ h

theorem ptp_inv_ask_verification {s : CallState}
    (h : s.promise_to_pay.confirmed = false) :
    PtpInvariant (ask_verification_question s).call_state := by
  rw [ask_verification_question]
  exact ptp_inv_wrap _ _ _ h

theorem ptp_inv_low_confidence {s : CallState} (ph : String) (pp : PartyProfile)
    (h : s.promise_to_pay.confirmed = false) :
    PtpInvariant (handle_low_confidence s ph pp).call_state := by
  rw [handle_low_confidence]
  split
  · exact ptp_inv_wrap _ _ _ h
  · exact ptp_inv_escalate h

theorem ptp_inv_deliver_disclosure {s : CallState} (pc : PolicyConfig)
    (ctx : AccountContext) (h : s.promise_to_pay.confirmed = false) :
    PtpInvariant (deliver_disclosure_and_start_negotiation s pc ctx).call_state := by
  rw [deliver_disclosure_and_start_negotiation]
  exact ptp_inv_wrap _ _ _ h

theorem ptp_inv_ite (c : Prop) [Decidable c] (a b : AgentResponse)
    (ha : PtpInvariant a.call_state) (hb : PtpInvariant b.call_state) :
    PtpInvariant (if c then a else b).call_state := by
  split
  · exact ha
  · exact hb

seal wrap_response close_call confirm_ptp escalate_and_end
  handle_low_confidence ask_verification_question handle_silence_turn end_with_limit
  deliver_disclosure_and_start_negotiation

theorem actions_ok_pre_verification (s : CallState) (pp : PartyProfile)
    (nlu : NluResult) :
    ActionsOk (handle_pre_verification s pp nlu) := by
  rw [handle_pre_verification]
  repeat' apply actions_ok_ite
  all_goals
    first
    | exact actions_ok_close _ _ _
    | exact actions_ok_wrap_nil _ _ _
    | exact actions_ok_ask_verification _
    | exact actions_ok_low_confidence _ _ _

theorem actions_ok_verification (env : DialogEnv) (s : CallState)
    (pp : PartyProfile) (ctx : AccountContext) (pc : PolicyConfig)
    (tr : String) (nlu : NluResult) :
    ActionsOk (handle_verification env s pp ctx pc tr nlu) := by
  rw [handle_verification]
  repeat' apply actions_ok_ite
  all_goals
    first
    | exact actions_ok_close _ _ _
    | exact actions_ok_wrap_nil _ _ _
    | exact actions_ok_deliver_disclosure _ _ _
    | exact actions_ok_low_confidence _ _ _

theorem actions_ok_negotiation (env : DialogEnv) (te : TurnEvent) (s : CallState)
    (pp : PartyProfile) (ctx : AccountContext) (pc : PolicyConfig)
    (tr : String) (nlu : NluResult) :
    ActionsOk (handle_negotiation env te s pp ctx pc tr nlu) := by
  rw [handle_negotiation]
  repeat' apply actions_ok_ite
  all_goals
    first
    | exact actions_ok_close _ _ _
    | exact actions_ok_wrap_nil _ _ _
    | exact actions_ok_confirm_ptp _ _ _
    | exact actions_ok_escalate_and_end _
    | exact actions_ok_low_confidence _ _ _

theorem ptp_inv_pre_verification {s : CallState} (pp : PartyProfile)
    (nlu : NluResult) (h : s.promise_to_pay.confirmed = false) :
    PtpInvariant (handle_pre_verification s pp nlu).call_state := by
  rw [handle_pre_verification]
  repeat' apply ptp_inv_ite
  all_goals
    first
    | exact ptp_inv_close _ _ h
    | exact ptp_inv_wrap _ _ _ h
    | exact ptp_inv_ask_verification h
    | exact ptp_inv_low_confidence _ _ h

theorem ptp_inv_verification (env : DialogEnv) {s : CallState} (pp : PartyProfile)
    (ctx : AccountContext) (pc : PolicyConfig) (tr : String) (nlu : NluResult)
    (h : s.promise_to_pay.confirmed = false) :
    PtpInvariant (handle_verification env s pp ctx pc tr nlu).call_state := by
  rw [handle_verification]
  repeat' apply ptp_inv_ite
  all_goals repeat' split
  all_goals
    first
    | exact ptp_inv_close _ _ h
    | exact ptp_inv_wrap _ _ _ h
    | exact ptp_inv_deliver_disclosure _ _ h
    | exact ptp_inv_low_confidence _ _ h

theorem ptp_inv_negotiation (env : DialogEnv) (te : TurnEvent) {s : CallState}
    (pp : PartyProfile) (ctx : AccountContext) (pc : PolicyConfig) (tr : String)
    (nlu : NluResult) (h : s.promise_to_pay.confirmed = false) :
    PtpInvariant (handle_negotiation env te s pp ctx pc tr nlu).call_state := by
  rw [handle_negotiation]
  repeat' apply ptp_inv_ite
  all_goals
    first
    | exact ptp_inv_close _ _ h
    | exact ptp_inv_wrap _ _ _ h
    | exact ptp_inv_confirm_ptp _ _ _
    | exact ptp_inv_escalate h
    | exact ptp_inv_low_confidence _ _ h

seal handle_pre_verification handle_verification handle_negotiation

theorem actions_ok_handle_turn (env : DialogEnv) (te : TurnEvent) (cs : CallState)
    (pp : PartyProfile) (ctx : AccountContext) (pc : PolicyConfig) :
    ActionsOk (handle_turn env te cs pp ctx pc) := by
  rw [handle_turn]
  repeat' apply actions_ok_ite
  all_goals
    first
    | exact Or.inl rfl
    | exact actions_ok_end_with_limit _
    | exact actions_ok_handle_silence _
    | exact actions_ok_close _ _ _
    | exact actions_ok_escalate_and_end _
    | exact actions_ok_pre_verification _ _ _
    | exact actions_ok_verification _ _ _ _ _ _ _
    | exact actions_ok_negotiation _ _ _ _ _ _ _ _

/-- `handle_turn` on an ended call: the fixed `already_closed` response with
the input state returned untouched. -/
theorem handle_turn_of_ended (env : DialogEnv) (te : TurnEvent) (cs : CallState)
    (pp : PartyProfile) (ctx : AccountContext) (pc : PolicyConfig)
    (h : cs.phase = .ended) :
    handle_turn env te cs pp ctx pc =
      { assistant_text := "This call is already closed. Goodbye.",
        assistant_intent := "already_closed", actions := [], call_state := cs } := by
  rw [handle_turn, if_pos h]

theorem ptp_inv_handle_turn (env : DialogEnv) (te : TurnEvent) {cs : CallState}
    (pp : PartyProfile) (ctx : AccountContext) (pc : PolicyConfig)
    (h : cs.promise_to_pay.confirmed = false) :
    PtpInvariant (handle_turn env te cs pp ctx pc).call_state := by
  rw [handle_turn]
  repeat' apply ptp_inv_ite
  all_goals repeat' split
  all_goals
    first
    | exact ptp_inv_of_not_confirmed h
    | exact ptp_inv_end_with_limit h
    | exact ptp_inv_silence h
    | exact ptp_inv_close _ _ h
    | exact ptp_inv_escalate h
    | exact ptp_inv_pre_verification _ _ h
    | exact ptp_inv_verification _ _ _ _ _ _ h
    | exact ptp_inv_negotiation _ _ _ _ _ _ _ h

unseal wrap_response close_call confirm_ptp escalate_and_end
  handle_low_confidence ask_verification_question handle_silence_turn end_with_limit
  deliver_disclosure_and_start_negotiation handle_pre_verification
  handle_verification handle_negotiation

/-- C7: `handle_turn` on a call whose phase is `ended` returns the
`already_closed` response — intent `already_closed`, empty action list, and a
call state equal to the input state, with no field mutated. -/
theorem c7_already_closed_no_mutation (env : DialogEnv) (te : TurnEvent)
    (cs : CallState) (pp : PartyProfile) (ctx : AccountContext) (pc : PolicyConfig)
    (h : cs.phase = .ended) :
    handle_turn env te cs pp ctx pc =
      { assistant_text := "This call is already closed. Goodbye.",
        assistant_intent := "already_closed", actions := [], call_state := cs } :=
  handle_turn_of_ended env te cs pp ctx pc h

/-- Witness for C7 at a concrete ended call state. -/
theorem c7_already_closed_no_mutation_witness :
    c7_demo_state.phase = .ended ∧
    handle_turn c7_demo_env c7_demo_te c7_demo_state {} {} {} =
      { assistant_text := "This call is already closed. Goodbye.",
        assistant_intent := "already_closed", actions := [],
        call_state := c7_demo_state } :=
  ⟨rfl, c7_already_closed_no_mutation c7_demo_env c7_demo_te c7_demo_state {} {} {} rfl⟩

/-- C8: for every call state reachable from the initial state via `start_call`
and any sequence of `handle_turn` steps (under any classifier, date
normalizer, inputs, and configuration), a confirmed promise-to-pay implies
the call is ended with `end_reason = "ptp_set"` and a non-null promise date
and amount. -/
theorem c8_ptp_confirmed_invariant (s : CallState) (hr : ReachableCallState s)
    (hc : s.promise_to_pay.confirmed = true) :
    s.phase = .ended ∧ s.end_reason = some "ptp_set" ∧
    s.promise_to_pay.date ≠ none ∧ s.promise_to_pay.amount ≠ none := by
  suffices hinv : PtpInvariant s from hinv hc
  clear hc
  induction hr with
  | start pp =>
    exact ptp_inv_wrap _ _ _ rfl
  | step env te pp ctx pc hr ih =>
    rename_i s0
    by_cases hc0 : s0.promise_to_pay.confirmed = true
    · rw [handle_turn_of_ended env te s0 pp ctx pc (ih hc0).1]
      exact ih
    · exact ptp_inv_handle_turn env te pp ctx pc (Bool.not_eq_true _ ▸ hc0)

set_option maxRecDepth 40000 in
/-- Witness for C8: the state after the happy-path chain is reachable, has a
confirmed promise, and satisfies the invariant conclusions. -/
theorem c8_ptp_confirmed_invariant_witness :
    ReachableCallState c8_s3 ∧ c8_s3.promise_to_pay.confirmed = true ∧
    (c8_s3.phase = .ended ∧ c8_s3.end_reason = some "ptp_set" ∧
     c8_s3.promise_to_pay.date ≠ none ∧ c8_s3.promise_to_pay.amount ≠ none) := by
  have h0 : ReachableCallState c8_s0 := ReachableCallState.start c8_demo_pp
  have h1 : ReachableCallState c8_s1 :=
    ReachableCallState.step c8_demo_env (c8_demo_te "This is Alex Morgan.")
      c8_demo_pp c8_demo_ctx {} h0
  have h2 : ReachableCallState c8_s2 :=
    ReachableCallState.step c8_demo_env (c8_demo_te "78701.")
      c8_demo_pp c8_demo_ctx {} h1
  have h3 : ReachableCallState c8_s3 :=
    ReachableCallState.step c8_demo_env (c8_demo_te "Yes, I can pay today.")
      c8_demo_pp c8_demo_ctx {} h2
  exact ⟨h3, by decide, c8_ptp_confirmed_invariant c8_s3 h3 (by decide)⟩

/-- C10: every `handle_turn` response has an empty action list unless the
returned call state is ended; a non-empty list starts with `set_outcome` at
exactly the state's `end_reason`, ends with `end_call` for the same reason,
and anything strictly between is `create_promise_to_pay` or
`escalate_to_human`; `start_call` emits no actions. -/
theorem c10_actions_structure (env : DialogEnv) (te : TurnEvent) (cs : CallState)
    (pp : PartyProfile) (ctx : AccountContext) (pc : PolicyConfig) :
    ((handle_turn env te cs pp ctx pc).call_state.phase ≠ .ended →
      (handle_turn env te cs pp ctx pc).actions = []) ∧
    ((handle_turn env te cs pp ctx pc).actions ≠ [] →
      (handle_turn env te cs pp ctx pc).call_state.phase = .ended ∧
      ∃ code, (handle_turn env te cs pp ctx pc).call_state.end_reason = some code ∧
        (handle_turn env te cs pp ctx pc).actions.head? = some (.set_outcome code) ∧
        (handle_turn env te cs pp ctx pc).actions.getLast? = some (.end_call code) ∧
        ∀ a ∈ ((handle_turn env te cs pp ctx pc).actions.drop 1).dropLast,
          (∃ d am, a = AgentAction.create_promise_to_pay d am) ∨
          (∃ rr, a = AgentAction.escalate_to_human rr)) ∧
    (∀ (cs2 : CallState) (pp2 : PartyProfile), (start_call cs2 pp2).actions = []) := by
  refine ⟨?_, ?_, ?_⟩
  · intro hne
    rcases actions_ok_handle_turn env te cs pp ctx pc with h | h
    · exact h
    · exact absurd h.1 hne
  · intro hne
    rcases actions_ok_handle_turn env te cs pp ctx pc with h | h
    · exact absurd h hne
    · exact h
  · intro cs2 pp2
    rw [start_call, wrap_response_actions]

/-- Witness for C10 at a concrete closing turn. -/
theorem c10_actions_structure_witness :
    ((handle_turn c10_demo_env c10_demo_te c10_demo_state {} {} {}).actions ≠ [] ∧
     ((handle_turn c10_demo_env c10_demo_te c10_demo_state {} {} {}).call_state.phase
        = .ended ∧
      ∃ code, (handle_turn c10_demo_env c10_demo_te c10_demo_state {} {}
          {}).call_state.end_reason = some code ∧
        (handle_turn c10_demo_env c10_demo_te c10_demo_state {} {} {}).actions.head? =
          some (.set_outcome code) ∧
        (handle_turn c10_demo_env c10_demo_te c10_demo_state {} {} {}).actions.getLast? =
          some (.end_call code) ∧
        ∀ a ∈ ((handle_turn c10_demo_env c10_demo_te c10_demo_state {} {}
            {}).actions.drop 1).dropLast,
          (∃ d am, a = AgentAction.create_promise_to_pay d am) ∨
          (∃ rr, a = AgentAction.escalate_to_human rr))) ∧
    (start_call initial_call_state {}).actions = [] :=
  ⟨⟨by decide,
    (c10_actions_structure c10_demo_env c10_demo_te c10_demo_state {} {} {}).2.1
      (by decide)⟩,
   (c10_actions_structure c10_demo_env c10_demo_te c10_demo_state {} {} {}).2.2
     initial_call_state {}⟩

theorem pair_count_cons (f : Char → Char → Bool) (a : Char) (l : List Char) :
    pair_count f (a :: l) =
      (match l.head? with
       | some b => if f a b then 1 else 0
       | none => 0) + pair_count f l := by
  cases l
  · simp [pair_count]
  · simp [pair_count, List.head?]

theorem pair_count_tail_eq_zero {f : Char → Char → Bool} {a : Char} {l : List Char}
    (h : pair_count f (a :: l) = 0) : pair_count f l = 0 := by
  rw [pair_count_cons] at h
  omega

theorem pair_count_append (f : Char → Char → Bool) :
    ∀ x y : List Char,
      pair_count f (x ++ y) = pair_count f x +
        (match x.getLast?, y.head? with
         | some a, some b => if f a b then 1 else 0
         | _, _ => 0) + pair_count f y
  | [], y => by simp [pair_count]
  | [a], y => by
    rw [List.singleton_append, pair_count_cons]
    cases hy : y.head? <;> simp [pair_count, hy]
  | a :: b :: rest, y => by
    have ih := pair_count_append f (b :: rest) y
    have e1 : pair_count f (a :: b :: (rest ++ y)) =
        (if f a b then 1 else 0) + pair_count f (b :: (rest ++ y)) := rfl
    have e2 : pair_count f (a :: b :: rest) =
        (if f a b then 1 else 0) + pair_count f (b :: rest) := rfl
    show pair_count f (a :: b :: (rest ++ y)) = _
    rw [e1, show b :: (rest ++ y) = (b :: rest) ++ y from rfl, ih, e2,
      List.getLast?_cons_cons]
    omega

theorem pair_count_zero_of_infix {f : Char → Char → Bool} {l m : List Char}
    (a b : List Char) (hl : l = a ++ m ++ b) (h : pair_count f l = 0) :
    pair_count f m = 0 := by
  subst hl
  rw [pair_count_append] at h
  rw [pair_count_append] at h
  omega

theorem pair_count_zero_mono {f g : Char → Char → Bool}
    (himp : ∀ a b, f a b = true → g a b = true) :
    ∀ l : List Char, pair_count g l = 0 → pair_count f l = 0
  | [] => fun _ => rfl
  | [_] => fun _ => rfl
  | a :: b :: rest => fun h => by
    have h1 : pair_count g (a :: b :: rest) =
        (if g a b then 1 else 0) + pair_count g (b :: rest) := rfl
    have h2 : pair_count f (a :: b :: rest) =
        (if f a b then 1 else 0) + pair_count f (b :: rest) := rfl
    rw [h1] at h
    rw [h2]
    have hrec := pair_count_zero_mono himp (b :: rest) (by omega)
    have hfb : f a b = false := by
      cases hf : f a b
      · rfl
      · have hg := himp a b hf
        rw [hg] at h
        simp at h
    rw [hfb, hrec]
    simp

theorem pair_count_zero_of_fst {f : Char → Char → Bool} {l : List Char}
    (h : ∀ a ∈ l, ∀ b, f a b = false) : pair_count f l = 0 := by
  induction l with
  | nil => rfl
  | cons a l ih =>
    rw [pair_count_cons]
    have h2 := ih (fun a2 ha2 b => h a2 (List.mem_cons_of_mem _ ha2) b)
    cases hl : l.head? with
    | none => simpa using h2
    | some b => simp [h a (List.mem_cons_self _ _) b, h2]

theorem pair_count_snoc {f : Char → Char → Bool} {x : Char} {l : List Char}
    (hws : ∀ a, f a x = false) :
    pair_count f (l ++ [x]) = pair_count f l := by
  rw [pair_count_append]
  cases hl : l.getLast? <;> simp [pair_count, hws]

theorem pair_count_map {f : Char → Char → Bool} {r : Char → Char}
    (hr : ∀ a b, f (r a) (r b) = f a b) (l : List Char) :
    pair_count f (l.map r) = pair_count f l := by
  induction l with
  | nil => rfl
  | cons a l ih =>
    rw [List.map_cons, pair_count_cons, pair_count_cons, ih, List.head?_map]
    cases l.head? <;> simp [hr]

/-- In a list with no `?`-whitespace adjacency, dropping every `?` leaves a
head that either was the original head or is not whitespace. -/
theorem filter_q_head : ∀ l : List Char, pair_count qwsf l = 0 →
    ∀ b, (l.filter (fun c => c ≠ '?')).head? = some b →
      l.head? = some b ∨ py_is_space b = false
  | [], _, b => by simp
  | c :: rest, h, b => by
    by_cases hc : c = '?'
    · subst hc
      rw [List.filter_cons_of_neg (by simp)]
      intro hb
      rcases filter_q_head rest (pair_count_tail_eq_zero h) b hb with h1 | h1
      · right
        rw [pair_count_cons, h1] at h
        by_cases hws : py_is_space b
        · exfalso
          simp [qwsf, hws] at h
        · simpa using hws
      · right
        exact h1
    · rw [List.filter_cons_of_pos (by simpa using hc)]
      intro hb
      left
      simpa using hb

/-- Dropping every `?` from a list with no flagged pair and no
`?`-whitespace adjacency leaves no flagged pair, for any flag that requires
whitespace on its right component. -/
theorem filter_q_pair_count {f : Char → Char → Bool}
    (hf : ∀ a b, f a b = true → py_is_space b = true) :
    ∀ l : List Char, pair_count f l = 0 → pair_count qwsf l = 0 →
      pair_count f (l.filter (fun c => c ≠ '?')) = 0
  | [] => fun _ _ => rfl
  | c :: rest => fun h hq => by
    have hrec := filter_q_pair_count hf rest (pair_count_tail_eq_zero h)
      (pair_count_tail_eq_zero hq)
    by_cases hc : c = '?'
    · subst hc
      rw [List.filter_cons_of_neg (by simp)]
      exact hrec
    · rw [List.filter_cons_of_pos (by simpa using hc)]
      rw [pair_count_cons, hrec]
      cases hb : (rest.filter (fun c => c ≠ '?')).head? with
      | none => simp
      | some b =>
        rcases filter_q_head rest (pair_count_tail_eq_zero hq) b hb with h1 | h1
        · rw [pair_count_cons, h1] at h
          have hfc : f c b = false := by
            cases hfb : f c b
            · rfl
            · simp [hfb] at h
          simp [hfc]
        · have hfc : f c b = false := by
            cases hfb : f c b
            · rfl
            · rw [hf c b hfb] at h1
              cases h1
          simp [hfc]

/-! Structural facts about `strip_chars`. -/

theorem head_dropWhile_not (p : Char → Bool) :
    ∀ l : List Char, ∀ b, (l.dropWhile p).head? = some b → p b = false
  | [], b => by simp
  | c :: rest, b => by
    rw [List.dropWhile_cons]
    split
    · exact head_dropWhile_not p rest b
    · intro hb
      rename_i hpc
      obtain rfl : c = b := by simpa using hb
      simpa using hpc

theorem strip_chars_infix (l : List Char) :
    ∃ a b, l = a ++ strip_chars l ++ b := by
  refine ⟨l.takeWhile py_is_space,
    ((l.dropWhile py_is_space).reverse.takeWhile py_is_space).reverse, ?_⟩
  conv_lhs => rw [← List.takeWhile_append_dropWhile (p := py_is_space) (l := l)]
  rw [strip_chars, List.append_assoc]
  congr 1
  conv_lhs => rw [show l.dropWhile py_is_space =
    (l.dropWhile py_is_space).reverse.reverse by rw [List.reverse_reverse]]
  conv_lhs => rw [← List.takeWhile_append_dropWhile (p := py_is_space)
    (l := (l.dropWhile py_is_space).reverse)]
  rw [List.reverse_append]

theorem strip_chars_eq_nil_iff (l : List Char) :
    strip_chars l = [] ↔ ∀ c ∈ l, py_is_space c = true := by
  rw [strip_chars]
  constructor
  · intro h c hc
    by_cases hws : py_is_space c = true
    · exact hws
    · exfalso
      have hmem : c ∈ l.dropWhile py_is_space := by
        have := List.takeWhile_append_dropWhile (p := py_is_space) (l := l)
        rcases List.mem_append.mp (by rw [this]; exact hc) with h1 | h1
        · exact absurd (List.mem_takeWhile_imp h1) (by simpa using hws)
        · exact h1
      have : (l.dropWhile py_is_space).reverse.dropWhile py_is_space = [] := by
        simpa using h
      have hall := List.dropWhile_eq_nil_iff.mp this
      exact hws (hall c (by simpa using hmem))
  · intro h
    have : l.dropWhile py_is_space = [] :=
      List.dropWhile_eq_nil_iff.mpr (fun c hc => h c hc)
    simp [this]

theorem strip_chars_head_not_ws (l : List Char) (b : Char)
    (hb : (strip_chars l).head? = some b) : py_is_space b = false := by
  have hne : strip_chars l ≠ [] := by
    intro h
    rw [h] at hb
    cases hb
  set m := l.dropWhile py_is_space with hm
  have h2 : strip_chars l = (m.reverse.dropWhile py_is_space).reverse := rfl
  have hsplit : m = strip_chars l ++ (m.reverse.takeWhile py_is_space).reverse := by
    conv_lhs => rw [show m = m.reverse.reverse by rw [List.reverse_reverse]]
    conv_lhs => rw [← List.takeWhile_append_dropWhile (p := py_is_space)
      (l := m.reverse)]
    rw [List.reverse_append, h2]
  have hhead : m.head? = some b := by
    rw [hsplit, List.head?_append]
    rw [hb]
    rfl
  exact head_dropWhile_not py_is_space l b hhead

theorem strip_chars_getLast_not_ws (l : List Char) (b : Char)
    (hb : (strip_chars l).getLast? = some b) : py_is_space b = false := by
  have h2 : (strip_chars l).getLast? =
      ((l.dropWhile py_is_space).reverse.dropWhile py_is_space).head? := by
    rw [strip_chars, List.getLast?_reverse]
  rw [h2] at hb
  exact head_dropWhile_not py_is_space _ b hb

theorem strip_chars_of_ends (l : List Char)
    (hh : ∀ b, l.head? = some b → py_is_space b = false)
    (hl : ∀ b, l.getLast? = some b → py_is_space b = false) :
    strip_chars l = l := by
  have h1 : l.dropWhile py_is_space = l := by
    cases l with
    | nil => rfl
    | cons c rest =>
      rw [List.dropWhile_cons, if_neg]
      simp [hh c rfl]
  rw [strip_chars, h1]
  have h2 : l.reverse.dropWhile py_is_space = l.reverse := by
    cases hr : l.reverse with
    | nil => rfl
    | cons c rest =>
      rw [List.dropWhile_cons, if_neg]
      have : l.getLast? = some c := by
        rw [← List.head?_reverse, hr]
        rfl
      simp [hl c this]
  rw [h2, List.reverse_reverse]

theorem strip_chars_sublist (l : List Char) : (strip_chars l).Sublist l := by
  obtain ⟨a, b, hab⟩ := strip_chars_infix l
  conv_rhs => rw [hab]
  exact (List.sublist_append_right a _).trans (List.sublist_append_left _ b)

/-! Structural facts about the sentence splitter. -/

theorem sent_split_aux_nil (sk : Bool) : sent_split_aux sk [] = [[]] := rfl

theorem sent_split_aux_cons (sk : Bool) (c : Char) (rest : List Char) :
    sent_split_aux sk (c :: rest) =
      if sk && py_is_space c then
        sent_split_aux true rest
      else
        if is_sentence_term c &&
            (match rest with
             | [] => false
             | d :: _ => py_is_space d) then
          [c] :: sent_split_aux true rest
        else
          match sent_split_aux false rest with
          | [] => [[c]]
          | h :: t => (c :: h) :: t := rfl

theorem sent_split_aux_ne_nil : ∀ (sk : Bool) (l : List Char),
    sent_split_aux sk l ≠ []
  | _, [] => by simp [sent_split_aux_nil]
  | sk, c :: rest => by
    rw [sent_split_aux_cons]
    split
    · exact sent_split_aux_ne_nil true rest
    · split
      · simp
      · split
        · simp
        · simp

/-- With no separator pending, the first chunk starts where the input starts. -/
theorem sent_split_aux_head : ∀ (l : List Char) (h : List Char) (t : List (List Char)),
    sent_split_aux false l = h :: t → h.head? = l.head?
  | [], h, t => by
    intro he
    simp only [sent_split_aux_nil, List.cons.injEq] at he
    rw [← he.1]
  | c :: rest, h, t => by
    rw [sent_split_aux_cons]
    simp only [Bool.false_and, Bool.false_eq_true, if_false]
    split
    · intro he
      injection he with h1 _
      rw [← h1]; rfl
    · split
      · intro he
        injection he with h1 _
        rw [← h1]; rfl
      · intro he
        injection he with h1 _
        rw [← h1]; rfl

/-- With no separator pending, the first chunk is a prefix of the input. -/
theorem sent_split_aux_prefix : ∀ (l : List Char) (h : List Char) (t : List (List Char)),
    sent_split_aux false l = h :: t → ∃ b, l = h ++ b
  | [], h, t => by
    intro he
    simp only [sent_split_aux_nil, List.cons.injEq] at he
    exact ⟨[], by rw [← he.1]; rfl⟩
  | c :: rest, h, t => by
    rw [sent_split_aux_cons]
    simp only [Bool.false_and, Bool.false_eq_true, if_false]
    split
    · intro he
      injection he with h1 _
      exact ⟨rest, by rw [← h1]; rfl⟩
    · split
      · intro he
        injection he with h1 _
        exact ⟨rest, by rw [← h1]; rfl⟩
      · rename_i h' t' hE
        intro he
        injection he with h1 _
        obtain ⟨b, hb⟩ := sent_split_aux_prefix rest h' t' hE
        exact ⟨b, by rw [← h1, hb]; rfl⟩

/-- Every chunk is a contiguous segment of the input. -/
theorem sent_split_aux_infix : ∀ (l : List Char) (sk : Bool) (ch : List Char),
    ch ∈ sent_split_aux sk l → ∃ a b, l = a ++ ch ++ b
  | [], _, ch => by
    intro hch
    simp only [sent_split_aux_nil, List.mem_singleton] at hch
    exact ⟨[], [], by simp [hch]⟩
  | c :: rest, sk, ch => by
    rw [sent_split_aux_cons]
    split
    · intro hch
      obtain ⟨a, b, hab⟩ := sent_split_aux_infix rest true ch hch
      exact ⟨c :: a, b, by simp [hab]⟩
    · split
      · intro hch
        rcases List.mem_cons.mp hch with rfl | hch
        · exact ⟨[], rest, rfl⟩
        · obtain ⟨a, b, hab⟩ := sent_split_aux_infix rest true ch hch
          exact ⟨c :: a, b, by simp [hab]⟩
      · cases hE : sent_split_aux false rest with
        | nil => exact absurd hE (sent_split_aux_ne_nil false rest)
        | cons h' t' =>
          simp only [hE]
          intro hch
          rcases List.mem_cons.mp hch with rfl | hch
          · obtain ⟨b, hb⟩ := sent_split_aux_prefix rest h' t' hE
            exact ⟨[], b, by simp [hb]⟩
          · obtain ⟨a, b, hab⟩ := sent_split_aux_infix rest false ch
              (by rw [hE]; exact List.mem_cons_of_mem _ hch)
            exact ⟨c :: a, b, by simp [hab]⟩

/-- No chunk contains a cut pair: a terminator followed by whitespace always
ends a chunk. -/
theorem sent_split_aux_cutf : ∀ (l : List Char) (sk : Bool) (ch : List Char),
    ch ∈ sent_split_aux sk l → pair_count cutf ch = 0
  | [], _, ch => by
    intro hch
    simp only [sent_split_aux_nil, List.mem_singleton] at hch
    simp [hch, pair_count]
  | c :: rest, sk, ch => by
    rw [sent_split_aux_cons]
    split
    · exact sent_split_aux_cutf rest true ch
    · split
      · intro hch
        rcases List.mem_cons.mp hch with rfl | hch
        · rfl
        · exact sent_split_aux_cutf rest true ch hch
      · cases hE : sent_split_aux false rest with
        | nil => exact absurd hE (sent_split_aux_ne_nil false rest)
        | cons h' t' =>
          simp only [hE]
          intro hch
          rcases List.mem_cons.mp hch with rfl | hch
          · rw [pair_count_cons]
            have hh' := sent_split_aux_cutf rest false h' (by rw [hE]; simp)
            rw [hh']
            cases hhd : h'.head? with
            | none => simp
            | some b =>
              have hb : rest.head? = some b := by
                rw [← sent_split_aux_head rest h' t' hE, hhd]
              cases rest with
              | nil => simp at hb
              | cons d rest' =>
                obtain rfl : d = b := by simpa using hb
                rename_i hcut
                have : cutf c d = false := by simpa [cutf] using hcut
                simp [this]
          · exact sent_split_aux_cutf rest false ch
              (by rw [hE]; exact List.mem_cons_of_mem _ hch)

/-- The number of chunks is at most one more than the number of cut pairs. -/
theorem sent_split_aux_length : ∀ (l : List Char) (sk : Bool),
    (sent_split_aux sk l).length ≤ pair_count cutf l + 1
  | [], _ => by simp [sent_split_aux_nil, pair_count]
  | c :: rest, sk => by
    have hmono : pair_count cutf rest ≤ pair_count cutf (c :: rest) := by
      rw [pair_count_cons]
      omega
    rw [sent_split_aux_cons]
    split
    · have := sent_split_aux_length rest true
      omega
    · split
      · rename_i hcut
        cases rest with
        | nil => simp at hcut
        | cons d rest' =>
          have hflag : cutf c d = true := by simpa [cutf] using hcut
          have hpc : pair_count cutf (c :: d :: rest') =
              1 + pair_count cutf (d :: rest') := by
            show (if cutf c d then 1 else 0) + _ = _
            rw [hflag]
            simp
          have := sent_split_aux_length (d :: rest') true
          simp only [List.length_cons]
          omega
      · split
        · simp
        · rename_i h' t' hE
          have := sent_split_aux_length rest false
          rw [hE] at this
          simp only [List.length_cons] at this ⊢
          omega

/-- A whitespace-free segment of the input is never split across chunks:
some chunk contains it whole.  First, the case where the segment starts the
input. -/
theorem sent_split_aux_seg_head : ∀ (d : List Char), d ≠ [] →
    (∀ c ∈ d, py_is_space c = false) →
    ∀ (b : List Char) (sk : Bool),
      ∃ rest t, sent_split_aux sk (d ++ b) = (d ++ rest) :: t
  | [], hne, _ => absurd rfl hne
  | [x], _, hws => fun b sk => by
    have hx : py_is_space x = false := hws x (List.mem_singleton_self x)
    rw [List.singleton_append, sent_split_aux_cons]
    rw [if_neg (by simp [hx])]
    by_cases hcut : (is_sentence_term x &&
        (match b with | [] => false | d :: _ => py_is_space d)) = true
    · rw [if_pos hcut]
      exact ⟨[], sent_split_aux true b, by simp⟩
    · rw [if_neg hcut]
      cases hE : sent_split_aux false b with
      | nil => exact absurd hE (sent_split_aux_ne_nil false b)
      | cons h' t' => exact ⟨h', t', by simp⟩
  | x :: y :: d', hne, hws => fun b sk => by
    have hx : py_is_space x = false := hws x (by simp)
    have hy : py_is_space y = false := hws y (by simp)
    rw [show (x :: y :: d') ++ b = x :: ((y :: d') ++ b) from rfl, sent_split_aux_cons]
    rw [if_neg (by simp [hx])]
    rw [if_neg (by simp [hy])]
    obtain ⟨rest, t, hE⟩ := sent_split_aux_seg_head (y :: d')
      (by simp) (fun c hc => hws c (List.mem_cons_of_mem _ hc)) b false
    rw [hE]
    exact ⟨rest, t, by simp⟩

/-! Facts about whitespace splitting and the cleaned string. -/

theorem split_on_pred_nil (p : Char → Bool) : split_on_pred p [] = [[]] := rfl

theorem split_on_pred_cons (p : Char → Bool) (c : Char) (rest : List Char) :
    split_on_pred p (c :: rest) =
      if p c then [] :: split_on_pred p rest
      else
        match split_on_pred p rest with
        | [] => [[c]]
        | h :: t => (c :: h) :: t := rfl

/-- Pieces produced by `split_on_pred` contain no separator character. -/
theorem split_on_pred_no_sep (p : Char → Bool) :
    ∀ l : List Char, ∀ w ∈ split_on_pred p l, ∀ c ∈ w, p c = false
  | [], w => by
    intro hw c hc
    simp only [split_on_pred_nil, List.mem_singleton] at hw
    subst hw
    cases hc
  | d :: rest, w => by
    intro hw c hc
    rw [split_on_pred_cons] at hw
    by_cases hd : p d = true
    · rw [if_pos hd] at hw
      rcases List.mem_cons.mp hw with rfl | hw
      · cases hc
      · exact split_on_pred_no_sep p rest w hw c hc
    · rw [if_neg hd] at hw
      cases hE : split_on_pred p rest with
      | nil =>
        rw [hE] at hw
        obtain rfl : w = [d] := by simpa using hw
        obtain rfl : c = d := by simpa using hc
        simpa using hd
      | cons h t =>
        rw [hE] at hw
        rcases List.mem_cons.mp hw with rfl | hw
        · rcases List.mem_cons.mp hc with rfl | hc
          · simpa using hd
          · exact split_on_pred_no_sep p rest h (by rw [hE]; simp) c hc
        · exact split_on_pred_no_sep p rest w
            (by rw [hE]; exact List.mem_cons_of_mem _ hw) c hc

/-- Every word of `words_of` is non-empty and whitespace-free. -/
theorem words_of_mem {l w : List Char} (hw : w ∈ words_of l) :
    w ≠ [] ∧ ∀ c ∈ w, py_is_space c = false := by
  rw [words_of, List.mem_filter] at hw
  exact ⟨by simpa using hw.2,
    fun c hc => split_on_pred_no_sep py_is_space l w hw.1 c hc⟩

theorem intercalate_space_single (g : List Char) :
    List.intercalate [' '] [g] = g := by
  simp [List.intercalate, List.intersperse]

theorem intercalate_space_pair (g1 g2 : List Char) :
    List.intercalate [' '] [g1, g2] = g1 ++ ' ' :: g2 := by
  simp [List.intercalate, List.intersperse]

theorem intercalate_space_cons_cons (w x : List Char) (rest : List (List Char)) :
    List.intercalate [' '] (w :: x :: rest) =
      w ++ ' ' :: List.intercalate [' '] (x :: rest) := by
  simp [List.intercalate, List.intersperse]

/-- Joining non-empty whitespace-free words with single spaces yields a string
with no adjacent whitespace pair, whose only whitespace is `' '`, whose ends
are not whitespace, and which is non-empty when the word list is. -/
theorem intercalate_space_facts :
    ∀ ws : List (List Char),
      (∀ w ∈ ws, w ≠ []) → (∀ w ∈ ws, ∀ c ∈ w, py_is_space c = false) →
      pair_count wsf (List.intercalate [' '] ws) = 0 ∧
      (∀ c ∈ List.intercalate [' '] ws, py_is_space c = true → c = ' ') ∧
      (∀ b, (List.intercalate [' '] ws).head? = some b → py_is_space b = false) ∧
      (∀ b, (List.intercalate [' '] ws).getLast? = some b → py_is_space b = false) ∧
      (ws ≠ [] → List.intercalate [' '] ws ≠ [])
  | [], _, _ => by
    refine ⟨rfl, ?_, ?_, ?_, ?_⟩ <;> simp [List.intercalate]
  | [w], hne, hws => by
    rw [intercalate_space_single]
    refine ⟨?_, ?_, ?_, ?_, ?_⟩
    · exact pair_count_zero_of_fst (fun a ha b => by
        simp [wsf, hws w (by simp) a ha])
    · intro c hc hcs
      exact absurd hcs (by simp [hws w (by simp) c hc])
    · intro b hb
      exact hws w (by simp) b (List.mem_of_mem_head? (by rw [hb]; simp))
    · intro b hb
      exact hws w (by simp) b (List.mem_of_mem_getLast? (by rw [hb]; simp))
    · intro _
      exact hne w (by simp)
  | w :: x :: rest, hne, hws => by
    have ih := intercalate_space_facts (x :: rest)
      (fun v hv => hne v (List.mem_cons_of_mem _ hv))
      (fun v hv => hws v (List.mem_cons_of_mem _ hv))
    set J := List.intercalate [' '] (x :: rest) with hJ
    have hJne : J ≠ [] := ih.2.2.2.2 (by simp)
    have hwne : w ≠ [] := hne w (by simp)
    have hwws : ∀ c ∈ w, py_is_space c = false := hws w (by simp)
    rw [intercalate_space_cons_cons, ← hJ]
    have hJhead : ∀ b, J.head? = some b → py_is_space b = false := ih.2.2.1
    refine ⟨?_, ?_, ?_, ?_, ?_⟩
    · rw [pair_count_append]
      have h1 : pair_count wsf w = 0 :=
        pair_count_zero_of_fst (fun a ha b => by simp [wsf, hwws a ha])
      have h2 : pair_count wsf (' ' :: J) = 0 := by
        rw [pair_count_cons, ih.1]
        cases hb : J.head? with
        | none => simp
        | some b => simp [wsf, hJhead b hb]
      have h3 : (match w.getLast?, (' ' :: J).head? with
          | some a, some b => if wsf a b then 1 else 0
          | _, _ => 0) = 0 := by
        cases ha : w.getLast? with
        | none => rfl
        | some a =>
          have : py_is_space a = false := hwws a (List.mem_of_mem_getLast? (by rw [ha]; simp))
          simp [wsf, this]
      omega
    · intro c hc hcs
      rcases List.mem_append.mp hc with hc | hc
      · exact absurd hcs (by simp [hwws c hc])
      · rcases List.mem_cons.mp hc with rfl | hc
        · rfl
        · exact ih.2.1 c hc hcs
    · intro b hb
      cases w with
      | nil => exact absurd rfl hwne
      | cons a t =>
        have hab : a = b := by simpa using hb
        exact hab ▸ hwws a (by simp)
    · intro b hb
      obtain ⟨b2, hb2⟩ : ∃ b2, J.getLast? = some b2 := by
        cases h : J.getLast? with
        | none => exact absurd (List.getLast?_eq_none_iff.mp h) hJne
        | some b2 => exact ⟨b2, rfl⟩
      have : (w ++ ' ' :: J).getLast? = some b2 := by
        rw [List.getLast?_append,
          show (' ' :: J) = [' '] ++ J from rfl, List.getLast?_append, hb2]
        rfl
      rw [this] at hb
      have hbb : b2 = b := by simpa using hb
      exact hbb ▸ ih.2.2.2.1 b2 hb2
    · intro _
      cases w with
      | nil => exact absurd rfl hwne
      | cons a t => simp

/-- The `cleaned` string of `_enforce_voice_first`: no adjacent whitespace,
all whitespace is a single `' '`, ends are not whitespace. -/
theorem cleaned_of_facts (l : List Char) :
    pair_count wsf (cleaned_of l) = 0 ∧
    (∀ c ∈ cleaned_of l, py_is_space c = true → c = ' ') ∧
    (∀ b, (cleaned_of l).head? = some b → py_is_space b = false) ∧
    (∀ b, (cleaned_of l).getLast? = some b → py_is_space b = false) := by
  have h := intercalate_space_facts (words_of l)
    (fun w hw => (words_of_mem hw).1)
    (fun w hw => (words_of_mem hw).2)
  exact ⟨h.1, h.2.1, h.2.2.1, h.2.2.2.1⟩

/-- A whitespace-free segment anywhere in the input lands whole in a chunk. -/
theorem sent_split_aux_seg : ∀ (a : List Char) (d b : List Char) (sk : Bool),
    d ≠ [] → (∀ c ∈ d, py_is_space c = false) →
    ∃ ch ∈ sent_split_aux sk (a ++ d ++ b), ∃ x y, ch = x ++ d ++ y
  | [], d, b, sk, hne, hws => by
    obtain ⟨rest, t, hE⟩ := sent_split_aux_seg_head d hne hws b sk
    rw [List.nil_append, hE]
    exact ⟨d ++ rest, by simp, [], rest, by simp⟩
  | c :: a', d, b, sk, hne, hws => by
    rw [show (c :: a') ++ d ++ b = c :: (a' ++ d ++ b) from rfl, sent_split_aux_cons]
    split
    · exact sent_split_aux_seg a' d b true hne hws
    · split
      · obtain ⟨ch, hch, x, y, hxy⟩ := sent_split_aux_seg a' d b true hne hws
        exact ⟨ch, List.mem_cons_of_mem _ hch, x, y, hxy⟩
      · obtain ⟨ch, hch, x, y, hxy⟩ := sent_split_aux_seg a' d b false hne hws
        cases hE : sent_split_aux false (a' ++ d ++ b) with
        | nil => exact absurd hE (sent_split_aux_ne_nil false (a' ++ d ++ b))
        | cons h' t' =>
          simp only [hE]
          rw [hE] at hch
          rcases List.mem_cons.mp hch with rfl | hch
          · exact ⟨c :: ch, by simp, c :: x, y, by simp [hxy]⟩
          · exact ⟨ch, List.mem_cons_of_mem _ hch, x, y, hxy⟩

/-! Normal form of a stripped sentence chunk. -/

/-- Normal form shared by the sentence strings the filter assembles: non-empty,
no internal cut pair, no adjacent whitespace, only `' '` as whitespace, and
non-whitespace at both ends. -/
theorem qwsf_imp_cutf : ∀ a b : Char, qwsf a b = true → cutf a b = true := by
  intro a b h
  rw [qwsf, Bool.and_eq_true] at h
  obtain rfl : a = '?' := by simpa using h.1
  rw [cutf, Bool.and_eq_true]
  exact ⟨by decide, h.2⟩

theorem cutf_snd_ws : ∀ a b : Char, cutf a b = true → py_is_space b = true := by
  intro a b h
  exact ((Bool.and_eq_true _ _).mp h).2

theorem wsf_snd_ws : ∀ a b : Char, wsf a b = true → py_is_space b = true := by
  intro a b h
  exact ((Bool.and_eq_true _ _).mp h).2

/-- A member of a list of which `g` is a sentence chunk is a member of `g`. -/
theorem pair_count_le_of_infix {f : Char → Char → Bool} {l m : List Char}
    (a b : List Char) (hl : l = a ++ m ++ b) :
    pair_count f m ≤ pair_count f l := by
  subst hl
  rw [pair_count_append, pair_count_append]
  omega

/-- Splitting a string containing `'?'` at the first `'?'`. -/
theorem mem_decomp_q {g : List Char} (hmem : '?' ∈ g) :
    g = g.takeWhile (fun c => c ≠ '?') ++
      '?' :: (g.dropWhile (fun c => c ≠ '?')).drop 1 := by
  have hd : g.dropWhile (fun c => c ≠ '?') ≠ [] := by
    intro h
    have := List.dropWhile_eq_nil_iff.mp h '?' hmem
    simp at this
  cases hE : g.dropWhile (fun c => c ≠ '?') with
  | nil => exact absurd hE hd
  | cons a t =>
    have ha : a = '?' := by
      have := head_dropWhile_not (fun c => c ≠ '?') g a (by rw [hE]; rfl)
      simpa using this
    subst ha
    conv_lhs => rw [← List.takeWhile_append_dropWhile (fun c => (c ≠ '?' : Bool)) g]
    rw [hE]
    rfl

theorem fix_q_eq_of_not_mem (qs : Bool) (g : List Char) (h : '?' ∉ g) :
    fix_question_sentence qs g = (g, qs) := by
  rw [fix_question_sentence, if_neg h]

theorem fix_q_eq_seen (g : List Char) (h : '?' ∈ g) :
    fix_question_sentence true g = (replace_char '?' '.' g, true) := by
  rw [fix_question_sentence, if_pos h]
  rfl

theorem fix_q_eq_first (g : List Char) (h : '?' ∈ g) :
    fix_question_sentence false g =
      (g.takeWhile (fun c => c ≠ '?') ++
        '?' :: ((g.dropWhile (fun c => c ≠ '?')).drop 1).filter (fun c => c ≠ '?'),
       true) := by
  rw [fix_question_sentence, if_pos h]
  rfl

theorem fix_questions_nil (qs : Bool) : fix_questions qs [] = [] := rfl

theorem fix_questions_cons (qs : Bool) (s : List Char) (rest : List (List Char)) :
    fix_questions qs (s :: rest) =
      strip_chars (fix_question_sentence qs s).1 ::
        fix_questions (fix_question_sentence qs s).2 rest := rfl

theorem replace_q_term (c : Char) :
    is_sentence_term (if c = '?' then '.' else c) = is_sentence_term c := by
  by_cases h : c = '?'
  · subst h; decide
  · rw [if_neg h]

theorem replace_q_ws (c : Char) :
    py_is_space (if c = '?' then '.' else c) = py_is_space c := by
  by_cases h : c = '?'
  · subst h; decide
  · rw [if_neg h]

/-- One pass of question normalization followed by `strip` preserves the
sentence normal form. -/
theorem fix_strip_norm (qs : Bool) (g : List Char) (hg : SentNorm g) :
    SentNorm (strip_chars (fix_question_sentence qs g).1) := by
  obtain ⟨hne, hcut, hwsfz, hsp, hhd, hlst⟩ := hg
  have hq_ws : py_is_space '?' = false := by decide
  by_cases hmem : '?' ∈ g
  · cases qs with
    | true =>
      rw [fix_q_eq_seen g hmem]
      have hfhd : ∀ b, (replace_char '?' '.' g).head? = some b →
          py_is_space b = false := by
        intro b hb
        rw [replace_char, List.head?_map] at hb
        cases hb0 : g.head? with
        | none => rw [hb0] at hb; cases hb
        | some b0 =>
          rw [hb0] at hb
          have : (if b0 = '?' then '.' else b0) = b := by simpa using hb
          rw [← this, replace_q_ws]
          exact hhd b0 hb0
      have hflst : ∀ b, (replace_char '?' '.' g).getLast? = some b →
          py_is_space b = false := by
        intro b hb
        rw [replace_char, List.getLast?_map] at hb
        cases hb0 : g.getLast? with
        | none => rw [hb0] at hb; cases hb
        | some b0 =>
          rw [hb0] at hb
          have : (if b0 = '?' then '.' else b0) = b := by simpa using hb
          rw [← this, replace_q_ws]
          exact hlst b0 hb0
      rw [strip_chars_of_ends _ hfhd hflst]
      refine ⟨by simpa [replace_char] using hne, ?_, ?_, ?_, hfhd, hflst⟩
      · rw [replace_char, pair_count_map (fun a b => by
          rw [cutf, cutf, replace_q_term, replace_q_ws])]
        exact hcut
      · rw [replace_char, pair_count_map (fun a b => by
          rw [wsf, wsf, replace_q_ws, replace_q_ws])]
        exact hwsfz
      · intro c hc hcs
        rw [replace_char] at hc
        obtain ⟨c0, hc0, hr⟩ := List.mem_map.mp hc
        rw [← hr, replace_q_ws] at hcs
        have := hsp c0 hc0 hcs
        rw [← hr, this]
        rfl
    | false =>
      rw [fix_q_eq_first g hmem]
      have hdec := mem_decomp_q hmem
      set pre := g.takeWhile (fun c => c ≠ '?') with hpre
      set post := (g.dropWhile (fun c => c ≠ '?')).drop 1 with hpost
      set post' := post.filter (fun c => c ≠ '?') with hpost2
      have hcut_pre : pair_count cutf pre = 0 := by
        refine Nat.le_zero.mp ?_
        calc pair_count cutf pre ≤ pair_count cutf g :=
              pair_count_le_of_infix [] ('?' :: post) hdec
          _ = 0 := hcut
      have hcut_qpost : pair_count cutf ('?' :: post) = 0 := by
        refine Nat.le_zero.mp ?_
        calc pair_count cutf ('?' :: post) ≤ pair_count cutf g :=
              pair_count_le_of_infix pre [] (by rw [List.append_nil]; exact hdec)
          _ = 0 := hcut
      have hcut_post : pair_count cutf post = 0 := pair_count_tail_eq_zero hcut_qpost
      have hwsf_pre : pair_count wsf pre = 0 := by
        refine Nat.le_zero.mp ?_
        calc pair_count wsf pre ≤ pair_count wsf g :=
              pair_count_le_of_infix [] ('?' :: post) hdec
          _ = 0 := hwsfz
      have hwsf_qpost : pair_count wsf ('?' :: post) = 0 := by
        refine Nat.le_zero.mp ?_
        calc pair_count wsf ('?' :: post) ≤ pair_count wsf g :=
              pair_count_le_of_infix pre [] (by rw [List.append_nil]; exact hdec)
          _ = 0 := hwsfz
      have hwsf_post : pair_count wsf post = 0 := pair_count_tail_eq_zero hwsf_qpost
      have hq_qpost : pair_count qwsf ('?' :: post) = 0 :=
        pair_count_zero_mono qwsf_imp_cutf _ hcut_qpost
      have hq_post : pair_count qwsf post = 0 := pair_count_tail_eq_zero hq_qpost
      have hcut_post2 : pair_count cutf post' = 0 :=
        filter_q_pair_count cutf_snd_ws post hcut_post hq_post
      have hwsf_post2 : pair_count wsf post' = 0 :=
        filter_q_pair_count wsf_snd_ws post hwsf_post hq_post
      have hhead2 : ∀ b, post'.head? = some b → py_is_space b = false := by
        intro b hb
        rcases filter_q_head post hq_post b hb with h1 | h1
        · simp only [pair_count_cons, h1] at hq_qpost
          have : qwsf '?' b = false := by
            cases hqq : qwsf '?' b
            · rfl
            · rw [hqq] at hq_qpost; simp at hq_qpost
          simpa [qwsf] using this
        · exact h1
      have hcut_f : pair_count cutf (pre ++ '?' :: post') = 0 := by
        rw [pair_count_append, pair_count_cons, hcut_post2]
        have h3 : (match pre.getLast?, ('?' :: post').head? with
            | some a, some b => if cutf a b then 1 else 0
            | _, _ => 0) = 0 := by
          cases ha : pre.getLast? with
          | none => rfl
          | some a => simp [cutf, hq_ws]
        have h4 : (match post'.head? with
            | some b => if cutf '?' b then 1 else 0
            | none => 0) = 0 := by
          cases hb : post'.head? with
          | none => rfl
          | some b => simp [cutf, hhead2 b hb]
        omega
      have hwsf_f : pair_count wsf (pre ++ '?' :: post') = 0 := by
        rw [pair_count_append, pair_count_cons, hwsf_post2]
        have h3 : (match pre.getLast?, ('?' :: post').head? with
            | some a, some b => if wsf a b then 1 else 0
            | _, _ => 0) = 0 := by
          cases ha : pre.getLast? with
          | none => rfl
          | some a => simp [wsf, hq_ws]
        have h4 : (match post'.head? with
            | some b => if wsf '?' b then 1 else 0
            | none => 0) = 0 := by
          cases hb : post'.head? with
          | none => rfl
          | some b => simp [wsf, hq_ws]
        omega
      have hmem_f : ∀ c ∈ pre ++ '?' :: post', c ∈ g := by
        intro c hc
        rcases List.mem_append.mp hc with hc | hc
        · rw [hdec]; exact List.mem_append.mpr (Or.inl hc)
        · rcases List.mem_cons.mp hc with rfl | hc
          · exact hmem
          · rw [hdec]
            exact List.mem_append.mpr (Or.inr
              (List.mem_cons_of_mem _ ((List.mem_filter.mp hc).1)))
      have hqf : '?' ∈ pre ++ '?' :: post' :=
        List.mem_append.mpr (Or.inr (List.mem_cons_self _ _))
      obtain ⟨a2, b2, hab2⟩ := strip_chars_infix (pre ++ '?' :: post')
      refine ⟨?_, pair_count_zero_of_infix a2 b2 hab2 hcut_f,
        pair_count_zero_of_infix a2 b2 hab2 hwsf_f, ?_,
        strip_chars_head_not_ws _, strip_chars_getLast_not_ws _⟩
      · intro hnil
        have := (strip_chars_eq_nil_iff _).mp hnil '?' hqf
        exact absurd this (by simp [hq_ws])
      · intro c hc hcs
        exact hsp c (hmem_f c ((strip_chars_sublist _).subset hc)) hcs
  · rw [fix_q_eq_of_not_mem qs g hmem]
    rw [strip_chars_of_ends g hhd hlst]
    exact ⟨hne, hcut, hwsfz, hsp, hhd, hlst⟩

/-- With the question already seen, normalization removes every `'?'`. -/
theorem fix_q_count_true (g : List Char) :
    List.count '?' (fix_question_sentence true g).1 = 0 ∧
    (fix_question_sentence true g).2 = true := by
  by_cases hmem : '?' ∈ g
  · rw [fix_q_eq_seen g hmem]
    refine ⟨List.count_eq_zero.mpr ?_, rfl⟩
    intro hq
    rw [replace_char] at hq
    obtain ⟨c0, hc0, hr⟩ := List.mem_map.mp hq
    by_cases h0 : c0 = '?'
    · rw [if_pos h0] at hr
      exact absurd hr (by decide)
    · rw [if_neg h0] at hr
      exact h0 hr
  · rw [fix_q_eq_of_not_mem true g hmem]
    exact ⟨List.count_eq_zero.mpr hmem, rfl⟩

/-- With the question not yet seen, normalization leaves at most one `'?'`,
and exactly none when the seen flag stays `false`. -/
theorem fix_q_count_first (g : List Char) :
    List.count '?' (fix_question_sentence false g).1 ≤ 1 ∧
    ((fix_question_sentence false g).2 = false →
      List.count '?' (fix_question_sentence false g).1 = 0) := by
  by_cases hmem : '?' ∈ g
  · rw [fix_q_eq_first g hmem]
    constructor
    · have h1 : List.count '?' (g.takeWhile (fun c => c ≠ '?')) = 0 := by
        refine List.count_eq_zero.mpr ?_
        intro hq
        have := List.mem_takeWhile_imp hq
        simp at this
      have h2 : List.count '?'
          (((g.dropWhile (fun c => c ≠ '?')).drop 1).filter (fun c => c ≠ '?')) = 0 := by
        refine List.count_eq_zero.mpr ?_
        intro hq
        have := (List.mem_filter.mp hq).2
        simp at this
      rw [List.count_append, List.count_cons, h1, h2]
      simp
    · intro h
      exact absurd h (by simp)
  · rw [fix_q_eq_of_not_mem false g hmem]
    have h0 : List.count '?' g = 0 := List.count_eq_zero.mpr hmem
    refine ⟨?_, fun _ => h0⟩
    show List.count '?' g ≤ 1
    omega

/-- Every surviving stripped sentence of the splitter output is in normal
form, given a cleaned input. -/
theorem raw_sentences_norm {cl g : List Char}
    (hwsfz : pair_count wsf cl = 0)
    (hsp : ∀ c ∈ cl, py_is_space c = true → c = ' ')
    (hg : g ∈ ((sent_split cl).map strip_chars).filter (fun s => s ≠ [])) :
    SentNorm g := by
  rw [List.mem_filter] at hg
  obtain ⟨hmap, hne⟩ := hg
  obtain ⟨ch, hch, rfl⟩ := List.mem_map.mp hmap
  have hcut_ch : pair_count cutf ch = 0 := sent_split_aux_cutf cl false ch hch
  obtain ⟨a, b, hab⟩ := sent_split_aux_infix cl false ch hch
  have hwsf_ch : pair_count wsf ch = 0 := pair_count_zero_of_infix a b hab hwsfz
  obtain ⟨a2, b2, hab2⟩ := strip_chars_infix ch
  refine ⟨by simpa using hne, pair_count_zero_of_infix a2 b2 hab2 hcut_ch,
    pair_count_zero_of_infix a2 b2 hab2 hwsf_ch, ?_,
    strip_chars_head_not_ws ch, strip_chars_getLast_not_ws ch⟩
  intro c hc
  apply hsp
  have h1 : c ∈ ch := (strip_chars_sublist ch).subset hc
  rw [hab]
  exact List.mem_append.mpr (Or.inl (List.mem_append.mpr (Or.inr h1)))

/-- When the cleaned text is non-empty, at least one sentence survives
stripping, so the `[cleaned]` fallback never fires. -/
theorem raw_sentences_ne_nil {cl : List Char} (hcl : cl ≠ [])
    (hhd : ∀ b, cl.head? = some b → py_is_space b = false) :
    ((sent_split cl).map strip_chars).filter (fun s => s ≠ []) ≠ [] := by
  cases hE : sent_split_aux false cl with
  | nil => exact absurd hE (sent_split_aux_ne_nil false cl)
  | cons h t =>
    obtain ⟨b, hb⟩ : ∃ b, cl.head? = some b := by
      cases cl with
      | nil => exact absurd rfl hcl
      | cons c r => exact ⟨c, rfl⟩
    have hhb : h.head? = some b := by rw [sent_split_aux_head cl h t hE, hb]
    have hbws : py_is_space b = false := hhd b hb
    have hsh : strip_chars h ≠ [] := by
      intro hnil
      have := (strip_chars_eq_nil_iff h).mp hnil b
        (List.mem_of_mem_head? (by rw [hhb]; rfl))
      exact absurd this (by simp [hbws])
    apply List.ne_nil_of_mem (a := strip_chars h)
    rw [show sent_split cl = sent_split_aux false cl from rfl, hE, List.map_cons]
    exact List.mem_filter.mpr ⟨List.mem_cons_self _ _, by simpa using hsh⟩

theorem sentences_of_eq_raw (cl : List Char)
    (h : ((sent_split cl).map strip_chars).filter (fun s => s ≠ []) ≠ []) :
    sentences_of cl = ((sent_split cl).map strip_chars).filter (fun s => s ≠ []) := by
  simp only [sentences_of]
  rw [if_neg h]

/-- Joining two normal-form sentences with a single space: no adjacent
whitespace, at most one cut pair (the boundary), and clean ends. -/
theorem two_sent_norm_facts (g1 g2 : List Char)
    (h1 : SentNorm g1) (h2 : SentNorm g2) :
    pair_count wsf (g1 ++ ' ' :: g2) = 0 ∧
    pair_count cutf (g1 ++ ' ' :: g2) ≤ 1 ∧
    (∀ c ∈ g1 ++ ' ' :: g2, py_is_space c = true → c = ' ') ∧
    (∀ b, (g1 ++ ' ' :: g2).head? = some b → py_is_space b = false) ∧
    (∀ b, (g1 ++ ' ' :: g2).getLast? = some b → py_is_space b = false) ∧
    g1 ++ ' ' :: g2 ≠ [] := by
  obtain ⟨h1ne, h1c, h1w, h1sp, h1hd, h1lst⟩ := h1
  obtain ⟨h2ne, h2c, h2w, h2sp, h2hd, h2lst⟩ := h2
  have hsterm : is_sentence_term ' ' = false := by decide
  refine ⟨?_, ?_, ?_, ?_, ?_, ?_⟩
  · rw [pair_count_append, pair_count_cons, h1w, h2w]
    have hb1 : (match g1.getLast?, (' ' :: g2).head? with
        | some a, some b => if wsf a b then 1 else 0
        | _, _ => 0) = 0 := by
      cases ha : g1.getLast? with
      | none => rfl
      | some a => simp [wsf, h1lst a ha]
    have hb2 : (match g2.head? with
        | some b => if wsf ' ' b then 1 else 0
        | none => 0) = 0 := by
      cases hb : g2.head? with
      | none => rfl
      | some b => simp [wsf, h2hd b hb]
    omega
  · rw [pair_count_append, pair_count_cons, h1c, h2c]
    have hb1 : (match g1.getLast?, (' ' :: g2).head? with
        | some a, some b => if cutf a b then 1 else 0
        | _, _ => 0) ≤ 1 := by
      cases ha : g1.getLast? with
      | none => exact Nat.zero_le 1
      | some a =>
        show (if cutf a ' ' then 1 else 0) ≤ 1
        split <;> omega
    have hb2 : (match g2.head? with
        | some b => if cutf ' ' b then 1 else 0
        | none => 0) = 0 := by
      cases hb : g2.head? with
      | none => rfl
      | some b => simp [cutf, hsterm]
    omega
  · intro c hc hcs
    rcases List.mem_append.mp hc with hc | hc
    · exact h1sp c hc hcs
    · rcases List.mem_cons.mp hc with rfl | hc
      · rfl
      · exact h2sp c hc hcs
  · intro b hb
    cases g1 with
    | nil => exact absurd rfl h1ne
    | cons a t =>
      have hab : a = b := by simpa using hb
      exact hab ▸ h1hd a rfl
  · intro b hb
    obtain ⟨b2, hb2⟩ : ∃ b2, g2.getLast? = some b2 := by
      cases hg : g2.getLast? with
      | none => exact absurd (List.getLast?_eq_none_iff.mp hg) h2ne
      | some b2 => exact ⟨b2, rfl⟩
    have heq : (g1 ++ ' ' :: g2).getLast? = some b2 := by
      rw [List.getLast?_append,
        show (' ' :: g2) = [' '] ++ g2 from rfl, List.getLast?_append, hb2]
      rfl
    rw [heq] at hb
    have hbb : b2 = b := by simpa using hb
    exact hbb ▸ h2lst b2 hb2
  · cases g1 with
    | nil => exact absurd rfl h1ne
    | cons a t => simp

/-- `ensure_terminal` on a normal-form string: the terminal-punctuation
patch preserves every normal-form property and forces a terminator at the
end. -/
theorem ensure_terminal_facts (J : List Char) (hne : J ≠ [])
    (hcut : pair_count cutf J ≤ 1) (hwsf : pair_count wsf J = 0)
    (hsp : ∀ c ∈ J, py_is_space c = true → c = ' ')
    (hq : List.count '?' J ≤ 1) :
    List.count '?' (ensure_terminal J) ≤ 1 ∧
    pair_count cutf (ensure_terminal J) ≤ 1 ∧
    pair_count wsf (ensure_terminal J) = 0 ∧
    (∀ c ∈ ensure_terminal J, py_is_space c = true → c = ' ') ∧
    (∃ c, (ensure_terminal J).getLast? = some c ∧ is_sentence_term c = true) := by
  have hdws : py_is_space '.' = false := by decide
  obtain ⟨cl, hcl⟩ : ∃ c, J.getLast? = some c := by
    cases hg : J.getLast? with
    | none => exact absurd (List.getLast?_eq_none_iff.mp hg) hne
    | some c => exact ⟨c, rfl⟩
  rw [ensure_terminal]
  simp only [hcl]
  by_cases hterm : is_sentence_term cl = true
  · rw [if_pos hterm]
    exact ⟨hq, hcut, hwsf, hsp, cl, hcl, hterm⟩
  · rw [if_neg hterm]
    refine ⟨?_, ?_, ?_, ?_, '.', List.getLast?_concat J, by decide⟩
    · rw [List.count_append, List.count_singleton]
      simpa using hq
    · rw [pair_count_snoc (fun a => by simp [cutf, hdws])]
      exact hcut
    · rw [pair_count_snoc (fun a => by simp [wsf, hdws])]
      exact hwsf
    · intro c hc hcs
      rcases List.mem_append.mp hc with hc | hc
      · exact hsp c hc hcs
      · obtain rfl : c = '.' := by simpa using hc
        exact absurd hcs (by simp [hdws])

/-- Normal form of the complete voice-first filter output. -/
theorem enforce_core_facts (text : List Char) :
    List.count '?' (enforce_voice_first_core text) ≤ 1 ∧
    (sent_split (enforce_voice_first_core text)).length ≤ 2 ∧
    (cleaned_of text ≠ [] →
      ∃ c, (enforce_voice_first_core text).getLast? = some c ∧
        is_sentence_term c = true) ∧
    pair_count wsf (enforce_voice_first_core text) = 0 ∧
    (∀ c ∈ enforce_voice_first_core text, py_is_space c = true → c = ' ') ∧
    (∀ a d b, cleaned_of text = a ++ d ++ b → d ≠ [] →
      (∀ c ∈ d, py_is_space c = false) →
      ∃ ch ∈ sent_split (cleaned_of text), ∃ x y, ch = x ++ d ++ y) := by
  obtain ⟨hwsfz, hsp, hhd, hlst⟩ := cleaned_of_facts text
  have hseg : ∀ a d b, cleaned_of text = a ++ d ++ b → d ≠ [] →
      (∀ c ∈ d, py_is_space c = false) →
      ∃ ch ∈ sent_split (cleaned_of text), ∃ x y, ch = x ++ d ++ y := by
    intro a d b heq hne2 hws2
    rw [heq]
    exact sent_split_aux_seg a d b false hne2 hws2
  by_cases hcl : cleaned_of text = []
  · have hout : enforce_voice_first_core text = [] := by
      simp only [enforce_voice_first_core]
      rw [if_pos hcl]
    rw [hout]
    exact ⟨by simp, by decide, fun h => absurd hcl h, rfl, by simp, hseg⟩
  · set raw := ((sent_split (cleaned_of text)).map strip_chars).filter
      (fun s => s ≠ []) with hrdef
    have hraw : raw ≠ [] := hrdef ▸ raw_sentences_ne_nil hcl hhd
    have hout : enforce_voice_first_core text =
        ensure_terminal (strip_chars (List.intercalate [' ']
          (fix_questions false (raw.take 2)))) := by
      simp only [enforce_voice_first_core]
      rw [if_neg hcl, sentences_of_eq_raw _ (hrdef ▸ hraw)]
    obtain ⟨g1, raw', hr⟩ : ∃ g1 raw', raw = g1 :: raw' := by
      cases hcase : raw with
      | nil => exact absurd hcase hraw
      | cons a l => exact ⟨a, l, rfl⟩
    have hmem1 : g1 ∈ raw := by rw [hr]; exact List.mem_cons_self _ _
    have hn1 : SentNorm g1 := raw_sentences_norm hwsfz hsp (hrdef ▸ hmem1)
    cases raw' with
    | nil =>
      have hfq : fix_questions false (raw.take 2) =
          [strip_chars (fix_question_sentence false g1).1] := by
        rw [hr]
        rfl
      set g1' := strip_chars (fix_question_sentence false g1).1 with hg1def
      have hn1' : SentNorm g1' := fix_strip_norm false g1 hn1
      have hJ : List.intercalate [' '] (fix_questions false (raw.take 2)) = g1' := by
        rw [hfq, intercalate_space_single]
      have hcount : List.count '?' g1' ≤ 1 := by
        calc List.count '?' g1'
            ≤ List.count '?' (fix_question_sentence false g1).1 :=
              (strip_chars_sublist _).count_le '?'
          _ ≤ 1 := (fix_q_count_first g1).1
      obtain ⟨h1ne, h1c, h1w, h1sp, h1hd, h1lst⟩ := hn1'
      have hout2 : enforce_voice_first_core text = ensure_terminal g1' := by
        rw [hout, hJ, strip_chars_of_ends g1' h1hd h1lst]
      have het := ensure_terminal_facts g1' h1ne (by omega) h1w h1sp hcount
      rw [hout2]
      refine ⟨het.1, ?_, fun _ => het.2.2.2.2, het.2.2.1, het.2.2.2.1, hseg⟩
      calc (sent_split (ensure_terminal g1')).length
          ≤ pair_count cutf (ensure_terminal g1') + 1 :=
            sent_split_aux_length _ false
        _ ≤ 2 := by have := het.2.1; omega
    | cons g2 raw2 =>
      have hmem2 : g2 ∈ raw := by
        rw [hr]
        exact List.mem_cons_of_mem _ (List.mem_cons_self _ _)
      have hn2 : SentNorm g2 := raw_sentences_norm hwsfz hsp (hrdef ▸ hmem2)
      have hfq : fix_questions false (raw.take 2) =
          [strip_chars (fix_question_sentence false g1).1,
           strip_chars
             (fix_question_sentence (fix_question_sentence false g1).2 g2).1] := by
        rw [hr]
        rfl
      set q1 := (fix_question_sentence false g1).2 with hq1def
      set g1' := strip_chars (fix_question_sentence false g1).1 with hg1def
      set g2' := strip_chars (fix_question_sentence q1 g2).1 with hg2def
      have hn1' : SentNorm g1' := fix_strip_norm false g1 hn1
      have hn2' : SentNorm g2' := fix_strip_norm q1 g2 hn2
      have hJ : List.intercalate [' '] (fix_questions false (raw.take 2)) =
          g1' ++ ' ' :: g2' := by
        rw [hfq, intercalate_space_pair]
      have hc1 : List.count '?' g1' ≤ List.count '?' (fix_question_sentence false g1).1 :=
        (strip_chars_sublist _).count_le '?'
      have hc2 : List.count '?' g2' ≤ List.count '?' (fix_question_sentence q1 g2).1 :=
        (strip_chars_sublist _).count_le '?'
      have hcount : List.count '?' (g1' ++ ' ' :: g2') ≤ 1 := by
        rw [List.count_append, List.count_cons]
        have hsp0 : (if (' ' == '?' : Bool) = true then 1 else 0) = 0 := by decide
        rw [hsp0]
        cases hq1 : q1 with
        | true =>
          rw [hq1] at hc2
          have h2z := (fix_q_count_true g2).1
          have h1b := (fix_q_count_first g1).1
          omega
        | false =>
          rw [hq1] at hc2
          have h1z : List.count '?' (fix_question_sentence false g1).1 = 0 :=
            (fix_q_count_first g1).2 (by rw [← hq1def]; exact hq1)
          have h2b := (fix_q_count_first g2).1
          omega
      have h2f := two_sent_norm_facts g1' g2' hn1' hn2'
      have hout2 : enforce_voice_first_core text =
          ensure_terminal (g1' ++ ' ' :: g2') := by
        rw [hout, hJ, strip_chars_of_ends _ h2f.2.2.2.1 h2f.2.2.2.2.1]
      have het := ensure_terminal_facts _ h2f.2.2.2.2.2 h2f.2.1 h2f.1 h2f.2.2.1 hcount
      rw [hout2]
      refine ⟨het.1, ?_, fun _ => het.2.2.2.2, het.2.2.1, het.2.2.2.1, hseg⟩
      calc (sent_split (ensure_terminal (g1' ++ ' ' :: g2'))).length
          ≤ pair_count cutf (ensure_terminal (g1' ++ ' ' :: g2')) + 1 :=
            sent_split_aux_length _ false
        _ ≤ 2 := by have := het.2.1; omega

/-- C9 (amended): every output of `_enforce_voice_first` contains at most one
`'?'`; it splits into at most two sentence chunks; whenever the
whitespace-collapsed input is non-empty the output ends in terminal
punctuation; the output has no two adjacent whitespace characters and its
only whitespace character is `' '`; and the sentence splitter never cuts
inside a whitespace-free segment of the collapsed text, so decimal amounts
such as `240.00` are never split across sentences.  (The original claim's
reading that every further `'?'` becomes `'.'` and that every output ends in
terminal punctuation is refuted separately.) -/
theorem c9_voice_first_amended (s : String) :
    List.count '?' (enforce_voice_first s).data ≤ 1 ∧
    (sent_split (enforce_voice_first s).data).length ≤ 2 ∧
    (cleaned_of s.data ≠ [] →
      ∃ c, (enforce_voice_first s).data.getLast? = some c ∧
        is_sentence_term c = true) ∧
    pair_count wsf (enforce_voice_first s).data = 0 ∧
    (∀ c ∈ (enforce_voice_first s).data, py_is_space c = true → c = ' ') ∧
    (∀ a d b, cleaned_of s.data = a ++ d ++ b → d ≠ [] →
      (∀ c ∈ d, py_is_space c = false) →
      ∃ ch ∈ sent_split (cleaned_of s.data), ∃ x y, ch = x ++ d ++ y) :=
  enforce_core_facts s.data

/-- C9 counterexample: a second `'?'` inside the first question sentence is
deleted by the implementation, not turned into `'.'` as the spec's question
rule states (`enforce_voice_first_spec` follows the spec's words and gives a
different output on the same input); and a whitespace-only input produces an
empty output with no terminal punctuation. -/
theorem c9_question_mark_counterexample :
    enforce_voice_first "A?B? C." = "A?B C." ∧
    enforce_voice_first_spec "A?B? C." = "A?B. C." ∧
    enforce_voice_first "A?B? C." ≠ enforce_voice_first_spec "A?B? C." ∧
    enforce_voice_first " " = "" := by decide

set_option maxRecDepth 40000 in
/-- The amended C9 theorem at a concrete prompt: the cleaned text is
non-empty so the output ends in a terminator, and the decimal `240.00`
lands whole inside one sentence chunk; the prompt is already in normal
form and passes through unchanged. -/
theorem c9_voice_first_amended_witness :
    cleaned_of c9_demo_s.data ≠ [] ∧
    (∃ c, (enforce_voice_first c9_demo_s).data.getLast? = some c ∧
      is_sentence_term c = true) ∧
    (∃ ch ∈ sent_split (cleaned_of c9_demo_s.data),
      ∃ x y, ch = x ++ c9_demo_d ++ y) ∧
    enforce_voice_first c9_demo_s = c9_demo_s := by
  refine ⟨by decide, (c9_voice_first_amended c9_demo_s).2.2.1 (by decide), ?_,
    by decide⟩
  exact (c9_voice_first_amended c9_demo_s).2.2.2.2.2 c9_demo_a c9_demo_d c9_demo_b
    (by decide) (by decide) (by decide)

end Collections
